import Mathlib

/-!
Formal model of the ant-farm repository's simulation core.

The repository contains several profiles of the same simulation idea:
* a full-scan falling-sand automaton with walking/digging/dropping ants
  (`src/sandbox/simulation.ts` with `src/sandbox/types.ts`),
* an active-set falling-sand automaton with marker-guided ants
  (the unnamed sandbox variant with `activeSand`),
* a physics-style ant-farm simulation (`src/sim/*`), and
* a grid-stepping state-machine ant-farm simulation (the second
  `simulateStep` variant in `src/sim`).

JavaScript numbers are modelled as rationals (`ℚ`), grid coordinates as
integers (`ℤ`), grids as lists of rows, and `Math.random()` as an explicit
stream `ℕ → ℚ` together with a cursor that counts how many draws have been
consumed; every call site consumes draws exactly where the source calls
`Math.random()` (respecting `&&` short-circuiting).
-/

attribute [local semireducible] Rat.add Rat.mul Rat.sub Rat.inv

/-! ## List helper lemmas -/

theorem getD_set_eq {α : Type _} (l : List α) (i : Nat) (a d : α) (h : i < l.length) :
    (l.set i a).getD i d = a := by
  induction l generalizing i with
  | nil => simp at h
  | cons b t ih =>
    cases i with
    | zero => simp
    | succ n => simpa using ih n (by simpa using h)

theorem getD_set_ne {α : Type _} (l : List α) {i j : Nat} (a d : α) (h : i ≠ j) :
    (l.set i a).getD j d = l.getD j d := by
  induction l generalizing i j with
  | nil => simp
  | cons b t ih =>
    cases i with
    | zero =>
      cases j with
      | zero => exact absurd rfl h
      | succ m => simp
    | succ n =>
      cases j with
      | zero => simp
      | succ m => simpa using ih (fun hnm => h (by simp [hnm]))

theorem length_set_list {α : Type _} (l : List α) (i : Nat) (a : α) :
    (l.set i a).length = l.length := by
  simp

theorem countP_set {α : Type _} (p : α → Bool) (l : List α) (i : Nat) (a d : α)
    (h : i < l.length) :
    (l.set i a).countP p + (if p (l.getD i d) then 1 else 0)
      = l.countP p + (if p a then 1 else 0) := by
  induction l generalizing i with
  | nil => simp at h
  | cons b t ih =>
    cases i with
    | zero =>
      by_cases hb : p b <;> by_cases ha : p a <;>
        simp [List.countP_cons, hb, ha]
    | succ n =>
      have hn : n < t.length := by simpa using h
      have h2 := ih n hn
      simp only [List.getD] at h2 ⊢
      simp only [List.set_cons_succ, List.countP_cons, List.get?_cons_succ]
      omega

theorem summap_set {α : Type _} (f : α → Nat) (l : List α) (i : Nat) (a d : α)
    (h : i < l.length) :
    ((l.set i a).map f).sum + f (l.getD i d) = (l.map f).sum + f a := by
  induction l generalizing i with
  | nil => simp at h
  | cons b t ih =>
    cases i with
    | zero => simp; omega
    | succ n =>
      have hn : n < t.length := by simpa using h
      have h2 := ih n hn
      simp only [List.getD] at h2 ⊢
      simp only [List.set_cons_succ, List.map_cons, List.sum_cons, List.get?_cons_succ]
      omega

theorem foldl_inv {α β : Type _} {P : β → Prop} (f : β → α → β) :
    ∀ (l : List α) (b : β), P b → (∀ x ∈ l, ∀ c, P c → P (f c x)) → P (l.foldl f b)
  | [], b, hb, _ => hb
  | x :: l, b, hb, hstep =>
    foldl_inv f l (f b x) (hstep x (by simp) b hb)
      (fun z hz c hc => hstep z (by simp [hz]) c hc)

/-! ## Full-scan sandbox profile (`src/sandbox/simulation.ts`)

Cell types and state from `src/sandbox/types.ts`; `WORLD_WIDTH` and
`WORLD_HEIGHT` are kept as parameters `W`, `H` of every function that reads
the source file's constants, so that the spec's small scenarios (3×3 grid)
are expressible alongside the shipped 160×120 configuration. -/

namespace Sandbox

inductive Cell : Type where
  | Empty : Cell
  | Sand : Cell
  | Wall : Cell
deriving DecidableEq, Repr

abbrev Grid := List (List Cell)

/-- Random stream: the values returned by successive `Math.random()` calls. -/
abbrev Rand := Nat → ℚ

/-- Read `grid[y][x]`; out-of-range reads (never performed by the source
outside of bounds-checked accessors) default to `Empty`. -/
def cellAt (g : Grid) (x y : Int) : Cell :=
  if 0 ≤ x ∧ 0 ≤ y then (g.getD y.toNat []).getD x.toNat Cell.Empty else Cell.Empty

/-- Write `grid[y][x] = c`; out-of-range writes change nothing. -/
def setCell (g : Grid) (x y : Int) (c : Cell) : Grid :=
  if 0 ≤ x ∧ 0 ≤ y then g.set y.toNat ((g.getD y.toNat []).set x.toNat c) else g

/-- Source `isEmpty`: in-bounds and `Cell.Empty`. -/
def isEmpty (W H : Nat) (g : Grid) (x y : Int) : Bool :=
  if x < 0 ∨ x ≥ (W : Int) ∨ y < 0 ∨ y ≥ (H : Int) then false
  else cellAt g x y = Cell.Empty

/-- Source `isSolid`: out of bounds counts as solid. -/
def isSolid (W H : Nat) (g : Grid) (x y : Int) : Bool :=
  if x < 0 ∨ x ≥ (W : Int) ∨ y < 0 ∨ y ≥ (H : Int) then true
  else cellAt g x y = Cell.Sand ∨ cellAt g x y = Cell.Wall

/-- Source `isDiggable`: in-bounds and `Cell.Sand`. -/
def isDiggable (W H : Nat) (g : Grid) (x y : Int) : Bool :=
  if x < 0 ∨ x ≥ (W : Int) ∨ y < 0 ∨ y ≥ (H : Int) then false
  else cellAt g x y = Cell.Sand

inductive AntState : Type where
  | walking : AntState
  | digging : AntState
  | dropping : AntState
deriving DecidableEq, Repr

structure Ant : Type where
  x : ℚ
  y : ℚ
  direction : Int
  carrySand : Bool
  state : AntState
  digCooldown : Nat
deriving DecidableEq, Repr

structure SandboxState : Type where
  grid : Grid
  ants : List Ant
  tick : Nat
deriving DecidableEq, Repr

/-- The two-assignment sand move `grid[y][x] = Empty; grid[ty][tx] = Sand`. -/
def moveSand (g : Grid) (x y tx ty : Int) : Grid :=
  setCell (setCell g x y Cell.Empty) tx ty Cell.Sand

/-- Source `updateCell`: straight-down fall, else a random 50/50 preferred
diagonal, each diagonal requiring both the diagonal-down cell and the lateral
cell in the same row to be empty. -/
def updateCell (W H : Nat) (g : Grid) (x y : Int) (r : Rand) (k : Nat) : Grid × Nat :=
  if cellAt g x y ≠ Cell.Sand then (g, k)
  else if isEmpty W H g x (y + 1) then (moveSand g x y x (y + 1), k)
  else
    if r k < (1 / 2 : ℚ) then
      if isEmpty W H g (x - 1) (y + 1) && isEmpty W H g (x - 1) y then
        (moveSand g x y (x - 1) (y + 1), k + 1)
      else if isEmpty W H g (x + 1) (y + 1) && isEmpty W H g (x + 1) y then
        (moveSand g x y (x + 1) (y + 1), k + 1)
      else (g, k + 1)
    else
      if isEmpty W H g (x + 1) (y + 1) && isEmpty W H g (x + 1) y then
        (moveSand g x y (x + 1) (y + 1), k + 1)
      else if isEmpty W H g (x - 1) (y + 1) && isEmpty W H g (x - 1) y then
        (moveSand g x y (x - 1) (y + 1), k + 1)
      else (g, k + 1)

/-- Movement stage of `walkBehavior`: walk forward, climb up, walk down a
slope, or (possibly after a random draw) start digging or turn around. -/
def walkMove (W H : Nat) (g : Grid) (a : Ant) (x y : Int) (r : Rand) (k : Nat) :
    Ant × Nat :=
  if isEmpty W H g (x + a.direction) y && isSolid W H g (x + a.direction) (y + 1) then
    ({ a with x := a.x + a.direction * (1 / 2 : ℚ) }, k)
  else if isSolid W H g (x + a.direction) y && isEmpty W H g x (y - 1) &&
      isEmpty W H g (x + a.direction) (y - 1) then
    ({ a with y := a.y - 1, x := a.x + a.direction * (1 / 2 : ℚ) }, k)
  else if isEmpty W H g (x + a.direction) y && isEmpty W H g (x + a.direction) (y + 1) &&
      isSolid W H g (x + a.direction) (y + 2) then
    ({ a with x := a.x + a.direction * (1 / 2 : ℚ), y := a.y + 1 }, k)
  else
    if !a.carrySand && isDiggable W H g (x + a.direction) y then
      if r k < (3 / 10 : ℚ) then ({ a with state := AntState.digging }, k + 1)
      else ({ a with direction := if a.direction = 1 then -1 else 1 }, k + 1)
    else ({ a with direction := if a.direction = 1 then -1 else 1 }, k)

/-- Trailing random dig check of `walkBehavior` (`Math.random() < 0.02` on the
cell under the ant's feet; the draw happens only when not carrying sand). -/
def walkDigCheck (W H : Nat) (g : Grid) (a : Ant) (x y : Int) (r : Rand) (k : Nat) :
    Ant × Nat :=
  if !a.carrySand then
    if r k < (1 / 50 : ℚ) && isDiggable W H g x (y + 1) then
      ({ a with state := AntState.digging }, k + 1)
    else (a, k + 1)
  else (a, k)

/-- Trailing random drop check of `walkBehavior` (`Math.random() < 0.01`; the
draw happens only when carrying sand). -/
def walkDropCheck (a : Ant) (r : Rand) (k : Nat) : Ant × Nat :=
  if a.carrySand then
    if r k < (1 / 100 : ℚ) then ({ a with state := AntState.dropping }, k + 1)
    else (a, k + 1)
  else (a, k)

/-- Source `walkBehavior` (grid is read-only here): the movement stage followed
by the two trailing random state checks, all on the same floored coordinates. -/
def walkBehavior (W H : Nat) (g : Grid) (a : Ant) (r : Rand) (k : Nat) : Ant × Nat :=
  let s1 := walkMove W H g a ⌊a.x⌋ ⌊a.y⌋ r k
  let s2 := walkDigCheck W H g s1.1 ⌊a.x⌋ ⌊a.y⌋ r s1.2
  walkDropCheck s2.1 r s2.2

/-- Loop body of `digBehavior`'s target scan. -/
def digLoop (W H : Nat) (g : Grid) (a : Ant) (x y : Int) :
    List (Int × Int) → Grid × Ant
  | [] => (g, { a with state := AntState.walking })
  | (dx, dy) :: rest =>
    if isDiggable W H g (x + dx) (y + dy) then
      (setCell g (x + dx) (y + dy) Cell.Empty,
        { a with carrySand := true, digCooldown := 10, state := AntState.walking })
    else digLoop W H g a x y rest

/-- Source `digBehavior`: dig the first diggable of front, front-below, below. -/
def digBehavior (W H : Nat) (g : Grid) (a : Ant) : Grid × Ant :=
  if a.digCooldown > 0 then (g, a)
  else
    digLoop W H g a ⌊a.x⌋ ⌊a.y⌋ [(a.direction, 0), (a.direction, 1), (0, 1)]

/-- Loop body of `dropBehavior`'s target scan. -/
def dropLoop (W H : Nat) (g : Grid) (a : Ant) (x y : Int) :
    List (Int × Int) → Grid × Ant
  | [] => (g, { a with state := AntState.walking })
  | (dx, dy) :: rest =>
    if isEmpty W H g (x + dx) (y + dy) then
      (setCell g (x + dx) (y + dy) Cell.Sand,
        { a with carrySand := false, state := AntState.walking })
    else dropLoop W H g a x y rest

/-- Source `dropBehavior`: drop into the first empty of front, above, behind. -/
def dropBehavior (W H : Nat) (g : Grid) (a : Ant) : Grid × Ant :=
  if !a.carrySand then (g, { a with state := AntState.walking })
  else
    dropLoop W H g a ⌊a.x⌋ ⌊a.y⌋ [(a.direction, 0), (0, -1), (-a.direction, 0)]

/-- Ground check, gravity fall, and state dispatch of `updateAnt` (run on the
ant after its dig cooldown has been decremented). -/
def updateAntBody (W H : Nat) (g : Grid) (a0 : Ant) (r : Rand) (k : Nat) :
    Grid × Ant × Nat :=
  if !(isSolid W H g ⌊a0.x⌋ (⌊a0.y⌋ + 1)) then
    (g, { a0 with y := a0.y + (1 / 2 : ℚ) }, k)
  else
    match a0.state with
    | AntState.walking =>
      let w := walkBehavior W H g a0 r k
      (g, w.1, w.2)
    | AntState.digging =>
      let d := digBehavior W H g a0
      (d.1, d.2, k)
    | AntState.dropping =>
      let d := dropBehavior W H g a0
      (d.1, d.2, k)

/-- Source `updateAnt`: cooldown decrement, gravity when not on ground, then
the state-machine dispatch. -/
def updateAnt (W H : Nat) (g : Grid) (a : Ant) (r : Rand) (k : Nat) :
    Grid × Ant × Nat :=
  updateAntBody W H g
    (if a.digCooldown > 0 then { a with digCooldown := a.digCooldown - 1 } else a) r k

/-- Column visiting order of one row sweep. -/
def xOrder (W : Nat) (leftToRight : Bool) : List Int :=
  if leftToRight then (List.range W).map Int.ofNat
  else ((List.range W).map Int.ofNat).reverse

/-- Row visiting order: `WORLD_HEIGHT - 2` down to `0`. -/
def yOrder (H : Nat) : List Int :=
  ((List.range (H - 1)).map Int.ofNat).reverse

/-- The full sand pass of `simulateStep` (nested row/column loops). -/
def sandPass (W H : Nat) (g : Grid) (ys xs : List Int) (r : Rand) (k : Nat) :
    Grid × Nat :=
  ys.foldl
    (fun (p : Grid × Nat) y =>
      xs.foldl (fun (q : Grid × Nat) x => updateCell W H q.1 x y r q.2) p)
    (g, k)

/-- The ant pass of `simulateStep` (each ant updated in list order). -/
def antsPass (W H : Nat) (g : Grid) (ants : List Ant) (r : Rand) (k : Nat) :
    Grid × List Ant × Nat :=
  match ants with
  | [] => (g, [], k)
  | a :: rest =>
    let u := updateAnt W H g a r k
    let s := antsPass W H u.1 rest r u.2.2
    (s.1, u.2.1 :: s.2.1, s.2.2)

/-- Source `simulateStep`: increment the tick, sweep the grid bottom-to-top
with the horizontal direction alternating by tick parity, then update ants. -/
def simulateStep (W H : Nat) (s : SandboxState) (r : Rand) (k : Nat) :
    SandboxState × Nat :=
  let tick := s.tick + 1
  let leftToRight : Bool := tick % 2 = 0
  let sp := sandPass W H s.grid (yOrder H) (xOrder W leftToRight) r k
  let ap := antsPass W H sp.1 s.ants r sp.2
  ({ grid := ap.1, ants := ap.2.1, tick := tick }, ap.2.2)

/-- Inclusive integer range `lo..hi` used to model `for (d = -r; d <= r; d++)`. -/
def intRange (lo hi : Int) : List Int :=
  (List.range (hi + 1 - lo).toNat).map (fun i => lo + i)

/-- Source `addSand`: place sand in a disc, only into empty in-bounds cells. -/
def addSand (W H : Nat) (g : Grid) (x y radius : Int) : Grid :=
  (intRange (-radius) radius).foldl
    (fun g1 dy =>
      (intRange (-radius) radius).foldl
        (fun g2 dx =>
          let px := x + dx
          let py := y + dy
          if px < 0 ∨ px ≥ (W : Int) ∨ py < 0 ∨ py ≥ (H : Int) then g2
          else if dx * dx + dy * dy > radius * radius then g2
          else if cellAt g2 px py = Cell.Empty then setCell g2 px py Cell.Sand
          else g2)
        g1)
    g

/-- Source `removeSand`: clear sand in a disc, only from in-bounds sand cells. -/
def removeSand (W H : Nat) (g : Grid) (x y radius : Int) : Grid :=
  (intRange (-radius) radius).foldl
    (fun g1 dy =>
      (intRange (-radius) radius).foldl
        (fun g2 dx =>
          let px := x + dx
          let py := y + dy
          if px < 0 ∨ px ≥ (W : Int) ∨ py < 0 ∨ py ≥ (H : Int) then g2
          else if dx * dx + dy * dy > radius * radius then g2
          else if cellAt g2 px py = Cell.Sand then setCell g2 px py Cell.Empty
          else g2)
        g1)
    g

/-- One if the cell is sand, zero otherwise. -/
def sandBit (c : Cell) : Nat :=
  if c = Cell.Sand then 1 else 0

/-- Number of sand cells in one row. -/
def sandRow : List Cell → Nat
  | [] => 0
  | c :: rest => sandBit c + sandRow rest

/-- Total number of sand cells in the grid. -/
def sandCount (g : Grid) : Nat :=
  (g.map sandRow).sum

/-- One if the ant carries sand, zero otherwise. -/
def carryBit (a : Ant) : Nat :=
  if a.carrySand then 1 else 0

/-- Number of ants whose `carrySand` flag is set. -/
def carriedCount : List Ant → Nat
  | [] => 0
  | a :: rest => carryBit a + carriedCount rest

/-- Well-formed grid: `H` rows of length `W` each. -/
def GridWF (W H : Nat) (g : Grid) : Prop :=
  g.length = H ∧ ∀ j : Nat, j < H → (g.getD j []).length = W

/-! ### Basic facts about the grid accessors -/

theorem isEmpty_iff {W H : Nat} {g : Grid} {x y : Int} :
    isEmpty W H g x y = true ↔
      0 ≤ x ∧ x < (W : Int) ∧ 0 ≤ y ∧ y < (H : Int) ∧ cellAt g x y = Cell.Empty := by
  unfold isEmpty
  split
  · rename_i hc
    constructor
    · intro h; cases h
    · intro h; rcases hc with hc | hc | hc | hc <;> omega
  · rename_i hc
    push_neg at hc
    simp only [decide_eq_true_eq]
    constructor
    · intro h; exact ⟨hc.1, hc.2.1, hc.2.2.1, hc.2.2.2, h⟩
    · intro h; exact h.2.2.2.2

theorem isDiggable_iff {W H : Nat} {g : Grid} {x y : Int} :
    isDiggable W H g x y = true ↔
      0 ≤ x ∧ x < (W : Int) ∧ 0 ≤ y ∧ y < (H : Int) ∧ cellAt g x y = Cell.Sand := by
  unfold isDiggable
  split
  · rename_i hc
    constructor
    · intro h; cases h
    · intro h; rcases hc with hc | hc | hc | hc <;> omega
  · rename_i hc
    push_neg at hc
    simp only [decide_eq_true_eq]
    constructor
    · intro h; exact ⟨hc.1, hc.2.1, hc.2.2.1, hc.2.2.2, h⟩
    · intro h; exact h.2.2.2.2

theorem cellAt_setCell_ne (g : Grid) {x y x' y' : Int} (c : Cell)
    (h : y.toNat ≠ y'.toNat ∨ x.toNat ≠ x'.toNat) :
    cellAt (setCell g x y c) x' y' = cellAt g x' y' := by
  unfold cellAt setCell
  split
  · split
    · rcases h with h | h
      · rw [getD_set_ne _ _ _ h]
      · by_cases hy : y.toNat = y'.toNat
        · rw [hy]
          by_cases hlen : y'.toNat < g.length
          · rw [getD_set_eq _ _ _ _ hlen, getD_set_ne _ _ _ h]
          · rw [List.set_eq_of_length_le (Nat.le_of_not_lt hlen)]
        · rw [getD_set_ne _ _ _ hy]
    · rfl
  · rfl

theorem gridWF_setCell {W H : Nat} {g : Grid} (wf : GridWF W H g) (x y : Int) (c : Cell) :
    GridWF W H (setCell g x y c) := by
  unfold setCell
  split
  · constructor
    · simpa using wf.1
    intro j hj
    by_cases hy : j = y.toNat
    · rw [← hy]
      by_cases hlen : j < g.length
      · rw [getD_set_eq _ _ _ _ hlen]
        simpa using wf.2 j hj
      · rw [List.set_eq_of_length_le (Nat.le_of_not_lt hlen)]
        exact wf.2 j hj
    · rw [getD_set_ne _ _ _ (fun hh => hy hh.symm)]
      exact wf.2 j hj
  · exact wf

theorem sandRow_set (row : List Cell) (i : Nat) (c : Cell) (h : i < row.length) :
    sandRow (row.set i c) + sandBit (row.getD i Cell.Empty) = sandRow row + sandBit c := by
  induction row generalizing i with
  | nil => simp at h
  | cons b t ih =>
    cases i with
    | zero => simp [sandRow]; omega
    | succ n =>
      have hn : n < t.length := by simpa using h
      have h2 := ih n hn
      simp only [List.set_cons_succ, sandRow, List.getD_cons_succ]
      omega

theorem sandCount_setCell {W H : Nat} {g : Grid} (wf : GridWF W H g) {x y : Int} (c : Cell)
    (hx0 : 0 ≤ x) (hxW : x < (W : Int)) (hy0 : 0 ≤ y) (hyH : y < (H : Int)) :
    sandCount (setCell g x y c) + sandBit (cellAt g x y) = sandCount g + sandBit c := by
  have hylen : y.toNat < g.length := by rw [wf.1]; omega
  have hxlen : x.toNat < (g.getD y.toNat []).length := by
    rw [wf.2 y.toNat (by omega)]; omega
  unfold setCell cellAt
  rw [if_pos ⟨hx0, hy0⟩, if_pos ⟨hx0, hy0⟩]
  unfold sandCount
  have h1 := summap_set sandRow g y.toNat ((g.getD y.toNat []).set x.toNat c) [] hylen
  have h2 := sandRow_set (g.getD y.toNat []) x.toNat c hxlen
  omega

theorem sandCount_moveSand {W H : Nat} {g : Grid} (wf : GridWF W H g) {x y tx ty : Int}
    (hsand : cellAt g x y = Cell.Sand)
    (hx0 : 0 ≤ x) (hxW : x < (W : Int)) (hy0 : 0 ≤ y) (hyH : y < (H : Int))
    (hemp : isEmpty W H g tx ty = true)
    (hrow : y.toNat ≠ ty.toNat) :
    sandCount (moveSand g x y tx ty) = sandCount g := by
  obtain ⟨htx0, htxW, hty0, htyH, hcell⟩ := isEmpty_iff.1 hemp
  have wf1 := gridWF_setCell wf x y Cell.Empty
  have e1 := sandCount_setCell wf Cell.Empty hx0 hxW hy0 hyH
  rw [hsand] at e1
  have hkeep : cellAt (setCell g x y Cell.Empty) tx ty = cellAt g tx ty :=
    cellAt_setCell_ne g Cell.Empty (Or.inl hrow)
  have e2 := sandCount_setCell wf1 Cell.Sand htx0 htxW hty0 htyH
  rw [hkeep, hcell] at e2
  unfold moveSand
  simp only [sandBit] at e1 e2
  simp only [reduceCtorEq] at e1 e2
  omega

theorem gridWF_moveSand {W H : Nat} {g : Grid} (wf : GridWF W H g) (x y tx ty : Int) :
    GridWF W H (moveSand g x y tx ty) :=
  gridWF_setCell (gridWF_setCell wf x y Cell.Empty) tx ty Cell.Sand

/-! ### The sand pass conserves sand -/

theorem getD_of_length_le {α : Type _} (l : List α) (i : Nat) (d : α)
    (h : l.length ≤ i) : l.getD i d = d := by
  induction l generalizing i with
  | nil => simp
  | cons b t ih =>
    cases i with
    | zero => simp at h
    | succ n => simpa using ih n (by simpa using h)

theorem cellAt_ne_empty_bounds {W H : Nat} {g : Grid} (wf : GridWF W H g) {x y : Int}
    (h : cellAt g x y ≠ Cell.Empty) :
    0 ≤ x ∧ x < (W : Int) ∧ 0 ≤ y ∧ y < (H : Int) := by
  unfold cellAt at h
  by_cases hg : 0 ≤ x ∧ 0 ≤ y
  · rw [if_pos hg] at h
    by_cases hyH : y.toNat < H
    · have hrow := wf.2 y.toNat hyH
      by_cases hxW : x.toNat < W
      · exact ⟨hg.1, by omega, hg.2, by omega⟩
      · have hdef : (g.getD y.toNat []).getD x.toNat Cell.Empty = Cell.Empty :=
          getD_of_length_le _ _ _ (by omega)
        exact absurd hdef h
    · have hglen : g.length ≤ y.toNat := by rw [wf.1]; omega
      have hrow : g.getD y.toNat [] = [] := getD_of_length_le _ _ _ hglen
      rw [hrow] at h
      simp at h
  · rw [if_neg hg] at h
    exact absurd rfl h

theorem diagMove_conserve {W H : Nat} {g : Grid} {x y d : Int} (wf : GridWF W H g)
    (hs : cellAt g x y = Cell.Sand)
    (hcond : (isEmpty W H g (x + d) (y + 1) && isEmpty W H g (x + d) y) = true) :
    sandCount (moveSand g x y (x + d) (y + 1)) = sandCount g ∧
      GridWF W H (moveSand g x y (x + d) (y + 1)) := by
  have hsplit : isEmpty W H g (x + d) (y + 1) = true ∧ isEmpty W H g (x + d) y = true := by
    simpa using hcond
  have h1 := hsplit.1
  obtain ⟨hx0, hxW, hy0, hyH⟩ := cellAt_ne_empty_bounds wf (by rw [hs]; intro hc; cases hc)
  exact ⟨sandCount_moveSand wf hs hx0 hxW hy0 hyH h1 (by omega),
    gridWF_moveSand wf _ _ _ _⟩

theorem updateCell_sandCount {W H : Nat} {g : Grid} (wf : GridWF W H g) (x y : Int)
    (r : Rand) (k : Nat) :
    sandCount (updateCell W H g x y r k).1 = sandCount g ∧
      GridWF W H (updateCell W H g x y r k).1 := by
  unfold updateCell
  split
  · exact ⟨rfl, wf⟩
  · rename_i hs
    push_neg at hs
    have hb := cellAt_ne_empty_bounds wf (by rw [hs]; intro hc; cases hc)
    split
    · rename_i hemp
      exact ⟨sandCount_moveSand wf hs hb.1 hb.2.1 hb.2.2.1 hb.2.2.2 hemp (by omega),
        gridWF_moveSand wf _ _ _ _⟩
    · split
      · split
        · rename_i hcond
          exact diagMove_conserve (d := -1) wf hs (by simpa using hcond)
        · split
          · rename_i hcond
            exact diagMove_conserve (d := 1) wf hs (by simpa using hcond)
          · exact ⟨rfl, wf⟩
      · split
        · rename_i hcond
          exact diagMove_conserve (d := 1) wf hs (by simpa using hcond)
        · split
          · rename_i hcond
            exact diagMove_conserve (d := -1) wf hs (by simpa using hcond)
          · exact ⟨rfl, wf⟩

theorem sandPass_sandCount {W H : Nat} (ys xs : List Int) (r : Rand) :
    ∀ (g : Grid) (k : Nat), GridWF W H g →
      sandCount (sandPass W H g ys xs r k).1 = sandCount g ∧
        GridWF W H (sandPass W H g ys xs r k).1 := by
  intro g k wf
  unfold sandPass
  have main := foldl_inv
    (P := fun p : Grid × Nat => GridWF W H p.1 ∧ sandCount p.1 = sandCount g)
    (fun (p : Grid × Nat) y =>
      xs.foldl (fun (q : Grid × Nat) x => updateCell W H q.1 x y r q.2) p)
    ys (g, k) ⟨wf, rfl⟩ ?_
  · exact ⟨main.2, main.1⟩
  · intro y _ c hc
    refine foldl_inv
      (P := fun p : Grid × Nat => GridWF W H p.1 ∧ sandCount p.1 = sandCount g)
      _ xs c hc ?_
    intro x _ q hq
    have h := updateCell_sandCount hq.1 x y r q.2
    exact ⟨h.2, h.1.trans hq.2⟩

/-! ### The ant pass conserves sand plus carried units -/

theorem walkMove_carry {W H : Nat} (g : Grid) (a : Ant) (x y : Int) (r : Rand) (k : Nat) :
    (walkMove W H g a x y r k).1.carrySand = a.carrySand := by
  unfold walkMove
  split
  · rfl
  · split
    · rfl
    · split
      · rfl
      · split
        · split <;> rfl
        · rfl

theorem walkDigCheck_carry {W H : Nat} (g : Grid) (a : Ant) (x y : Int) (r : Rand)
    (k : Nat) : (walkDigCheck W H g a x y r k).1.carrySand = a.carrySand := by
  unfold walkDigCheck
  split
  · split <;> rfl
  · rfl

theorem walkDropCheck_carry (a : Ant) (r : Rand) (k : Nat) :
    (walkDropCheck a r k).1.carrySand = a.carrySand := by
  unfold walkDropCheck
  split
  · split <;> rfl
  · rfl

theorem walkBehavior_carry {W H : Nat} (g : Grid) (a : Ant) (r : Rand) (k : Nat) :
    (walkBehavior W H g a r k).1.carrySand = a.carrySand := by
  unfold walkBehavior
  rw [walkDropCheck_carry, walkDigCheck_carry, walkMove_carry]

theorem digLoop_conserve {W H : Nat} {g : Grid} {a : Ant} (x y : Int)
    (wf : GridWF W H g) (hcarry : a.carrySand = false) :
    ∀ ts : List (Int × Int),
      sandCount (digLoop W H g a x y ts).1 + carryBit (digLoop W H g a x y ts).2
          = sandCount g + carryBit a ∧
        GridWF W H (digLoop W H g a x y ts).1
  | [] => by
    constructor
    · simp [digLoop, carryBit]
    · simpa [digLoop] using wf
  | (dx, dy) :: rest => by
    unfold digLoop
    split
    · rename_i hdig
      obtain ⟨hx0, hxW, hy0, hyH, hsand⟩ := isDiggable_iff.1 hdig
      have e := sandCount_setCell wf Cell.Empty hx0 hxW hy0 hyH
      rw [hsand] at e
      have e2 : sandCount (setCell g (x + dx) (y + dy) Cell.Empty) + 1 = sandCount g := by
        simpa [sandBit] using e
      dsimp only
      refine ⟨?_, gridWF_setCell wf _ _ _⟩
      have hc1 : carryBit
          { a with carrySand := true, digCooldown := 10, state := AntState.walking } = 1 := rfl
      have hc2 : carryBit a = 0 := by simp [carryBit, hcarry]
      omega
    · exact digLoop_conserve x y wf hcarry rest

theorem digBehavior_conserve {W H : Nat} {g : Grid} {a : Ant}
    (wf : GridWF W H g) (hcarry : a.carrySand = false) :
    sandCount (digBehavior W H g a).1 + carryBit (digBehavior W H g a).2
        = sandCount g + carryBit a ∧
      GridWF W H (digBehavior W H g a).1 := by
  unfold digBehavior
  split
  · exact ⟨rfl, wf⟩
  · exact digLoop_conserve _ _ wf hcarry _

theorem dropLoop_conserve {W H : Nat} {g : Grid} {a : Ant} (x y : Int)
    (wf : GridWF W H g) (hcarry : a.carrySand = true) :
    ∀ ts : List (Int × Int),
      sandCount (dropLoop W H g a x y ts).1 + carryBit (dropLoop W H g a x y ts).2
          = sandCount g + carryBit a ∧
        GridWF W H (dropLoop W H g a x y ts).1
  | [] => by
    constructor
    · simp [dropLoop, carryBit]
    · simpa [dropLoop] using wf
  | (dx, dy) :: rest => by
    unfold dropLoop
    split
    · rename_i hemp
      obtain ⟨hx0, hxW, hy0, hyH, hcell⟩ := isEmpty_iff.1 hemp
      have e := sandCount_setCell wf Cell.Sand hx0 hxW hy0 hyH
      rw [hcell] at e
      have e2 : sandCount (setCell g (x + dx) (y + dy) Cell.Sand) = sandCount g + 1 := by
        simpa [sandBit] using e
      dsimp only
      refine ⟨?_, gridWF_setCell wf _ _ _⟩
      have hc1 : carryBit { a with carrySand := false, state := AntState.walking } = 0 := rfl
      have hc2 : carryBit a = 1 := by simp [carryBit, hcarry]
      omega
    · exact dropLoop_conserve x y wf hcarry rest

theorem dropBehavior_conserve {W H : Nat} {g : Grid} {a : Ant} (wf : GridWF W H g) :
    sandCount (dropBehavior W H g a).1 + carryBit (dropBehavior W H g a).2
        = sandCount g + carryBit a ∧
      GridWF W H (dropBehavior W H g a).1 := by
  unfold dropBehavior
  split
  · refine ⟨?_, wf⟩
    rfl
  · rename_i hcc
    have hc : a.carrySand = true := by
      rcases hb : a.carrySand with _ | _
      · exact absurd (by simp [hb]) hcc
      · rfl
    exact dropLoop_conserve _ _ wf hc _

theorem updateAntBody_conserve {W H : Nat} {g : Grid} {a0 : Ant} (r : Rand) (k : Nat)
    (wf : GridWF W H g)
    (hdig : a0.state = AntState.digging → a0.carrySand = false) :
    sandCount (updateAntBody W H g a0 r k).1 + carryBit (updateAntBody W H g a0 r k).2.1
        = sandCount g + carryBit a0 ∧
      GridWF W H (updateAntBody W H g a0 r k).1 := by
  unfold updateAntBody
  split
  · constructor
    · rfl
    · exact wf
  · rcases hst : a0.state with _ | _ | _
    · simp only [hst]
      constructor
      · have hcw := walkBehavior_carry (W := W) (H := H) g a0 r k
        simp only [carryBit, hcw]
      · exact wf
    · simp only [hst]
      exact digBehavior_conserve wf (hdig hst)
    · simp only [hst]
      exact dropBehavior_conserve wf

theorem updateAnt_conserve {W H : Nat} {g : Grid} {a : Ant} (r : Rand) (k : Nat)
    (wf : GridWF W H g)
    (hdig : a.state = AntState.digging → a.carrySand = false) :
    sandCount (updateAnt W H g a r k).1 + carryBit (updateAnt W H g a r k).2.1
        = sandCount g + carryBit a ∧
      GridWF W H (updateAnt W H g a r k).1 := by
  unfold updateAnt
  set a0 := if a.digCooldown > 0 then { a with digCooldown := a.digCooldown - 1 } else a
    with ha0
  have hcarry0 : a0.carrySand = a.carrySand := by rw [ha0]; split <;> rfl
  have hstate0 : a0.state = a.state := by rw [ha0]; split <;> rfl
  have h := @updateAntBody_conserve W H g a0 r k wf
    (fun hsa => by rw [hcarry0]; exact hdig (hstate0 ▸ hsa))
  rw [show carryBit a0 = carryBit a from by simp only [carryBit, hcarry0]] at h
  exact h

theorem antsPass_conserve {W H : Nat} (r : Rand) :
    ∀ (ants : List Ant) (g : Grid) (k : Nat), GridWF W H g →
      (∀ a ∈ ants, a.state = AntState.digging → a.carrySand = false) →
      sandCount (antsPass W H g ants r k).1 + carriedCount (antsPass W H g ants r k).2.1
          = sandCount g + carriedCount ants ∧
        GridWF W H (antsPass W H g ants r k).1
  | [], g, k, wf, _ => by
    constructor
    · simp [antsPass, carriedCount]
    · simpa [antsPass] using wf
  | a :: rest, g, k, wf, hd => by
    have h1 := updateAnt_conserve (g := g) (a := a) r k wf (hd a (by simp))
    have h2 := antsPass_conserve r rest (updateAnt W H g a r k).1
      (updateAnt W H g a r k).2.2 h1.2
      (fun b hb => hd b (by simp [hb]))
    unfold antsPass
    dsimp only
    constructor
    · simp only [carriedCount]
      omega
    · exact h2.2

/-! ### Claim theorems for the full-scan sandbox profile -/

/-- Claim C1: mass conservation. One call to `simulateStep` on a sandbox state
(sand movement plus the ants' dig and drop actions, with no external
`addSand`/`removeSand` edits) leaves the total number of `Sand` cells in the
grid plus the number of ants with `carrySand = true` unchanged, for every
random stream. The hypothesis `hdig` records the profile invariant that an ant
in the `digging` state is not already carrying sand (the only transitions into
`digging`, in `walkBehavior`, are guarded by `!ant.carrySand`). -/
theorem C1_mass_conservation (W H : Nat) (s : SandboxState) (r : Rand) (k : Nat)
    (wf : GridWF W H s.grid)
    (hdig : ∀ a ∈ s.ants, a.state = AntState.digging → a.carrySand = false) :
    sandCount (simulateStep W H s r k).1.grid
        + carriedCount (simulateStep W H s r k).1.ants
      = sandCount s.grid + carriedCount s.ants := by
  unfold simulateStep
  dsimp only
  have hs := sandPass_sandCount (W := W) (H := H) (yOrder H)
    (xOrder W (decide ((s.tick + 1) % 2 = 0))) r s.grid k wf
  have ha := antsPass_conserve (W := W) (H := H) r s.ants
    (sandPass W H s.grid (yOrder H) (xOrder W (decide ((s.tick + 1) % 2 = 0))) r k).1
    (sandPass W H s.grid (yOrder H) (xOrder W (decide ((s.tick + 1) % 2 = 0))) r k).2
    hs.2 hdig
  omega

/-- Constant random stream used by concrete witnesses. -/
def halfRand : Rand := fun _ => (1 / 2 : ℚ)

/-- Concrete 3×3 sandbox state with one sand cell and one walking ant. -/
def w1State : SandboxState :=
  { grid := [[Cell.Empty, Cell.Empty, Cell.Empty],
             [Cell.Empty, Cell.Sand, Cell.Empty],
             [Cell.Wall, Cell.Wall, Cell.Wall]],
    ants := [{ x := 1 / 2, y := 3 / 2, direction := 1, carrySand := false,
               state := AntState.walking, digCooldown := 0 }],
    tick := 0 }

/-- Witness for C1 at a concrete 3×3 state, ant list, and random stream. -/
theorem C1_mass_conservation_witness :
    sandCount (simulateStep 3 3 w1State halfRand 0).1.grid
        + carriedCount (simulateStep 3 3 w1State halfRand 0).1.ants
      = sandCount w1State.grid + carriedCount w1State.ants :=
  C1_mass_conservation 3 3 w1State halfRand 0
    (by constructor
        · rfl
        · decide)
    (by decide)

/-- The 3×3 scenario grid: only the center cell holds sand. -/
def threeGrid : Grid :=
  [[Cell.Empty, Cell.Empty, Cell.Empty],
   [Cell.Empty, Cell.Sand, Cell.Empty],
   [Cell.Empty, Cell.Empty, Cell.Empty]]

/-- The 3×3 scenario grid after one tick: the particle fell straight down. -/
def threeAfter : Grid :=
  [[Cell.Empty, Cell.Empty, Cell.Empty],
   [Cell.Empty, Cell.Empty, Cell.Empty],
   [Cell.Empty, Cell.Sand, Cell.Empty]]

/-- One `updateCell` branch fact: a non-sand cell is left unchanged. -/
theorem updateCell_skip (W H : Nat) (g : Grid) (x y : Int) (r : Rand) (k : Nat)
    (hs : cellAt g x y ≠ Cell.Sand) : updateCell W H g x y r k = (g, k) := by
  unfold updateCell
  rw [if_pos hs]

/-- One `updateCell` branch fact: with the cell below empty, the particle
falls straight down and no random draw is consumed. -/
theorem updateCell_fall (W H : Nat) (g : Grid) (x y : Int) (r : Rand) (k : Nat)
    (hs : cellAt g x y = Cell.Sand) (he : isEmpty W H g x (y + 1) = true) :
    updateCell W H g x y r k = (moveSand g x y x (y + 1), k) := by
  unfold updateCell
  rw [if_neg (fun hne => hne hs), if_pos he]

/-- Claim C3: per-particle settling rule of `updateCell`. If the cell directly
below a sand cell is empty the particle moves exactly one cell straight down
(consuming no random draw); otherwise a 50/50 draw picks the preferred lateral
direction (left when the draw is below one half), a diagonal move in the
preferred direction happens only when both the diagonal-down cell and the
lateral cell in the same row are empty, else the opposite diagonal is tried
under the same two-cell rule, else the grid is unchanged. In particular, on a
3×3 grid whose only sand cell is the center, one `simulateStep` (no ants)
leaves the center empty and the cell directly below it sand, for every random
stream. -/
theorem C3_settling_rule :
    (∀ (W H : Nat) (g : Grid) (x y : Int) (r : Rand) (k : Nat),
      cellAt g x y = Cell.Sand →
      ((isEmpty W H g x (y + 1) = true →
          updateCell W H g x y r k = (moveSand g x y x (y + 1), k)) ∧
       (isEmpty W H g x (y + 1) = false → r k < (1 / 2 : ℚ) →
          (isEmpty W H g (x - 1) (y + 1) && isEmpty W H g (x - 1) y) = true →
          updateCell W H g x y r k = (moveSand g x y (x - 1) (y + 1), k + 1)) ∧
       (isEmpty W H g x (y + 1) = false → r k < (1 / 2 : ℚ) →
          (isEmpty W H g (x - 1) (y + 1) && isEmpty W H g (x - 1) y) = false →
          (isEmpty W H g (x + 1) (y + 1) && isEmpty W H g (x + 1) y) = true →
          updateCell W H g x y r k = (moveSand g x y (x + 1) (y + 1), k + 1)) ∧
       (isEmpty W H g x (y + 1) = false → ¬(r k < (1 / 2 : ℚ)) →
          (isEmpty W H g (x + 1) (y + 1) && isEmpty W H g (x + 1) y) = true →
          updateCell W H g x y r k = (moveSand g x y (x + 1) (y + 1), k + 1)) ∧
       (isEmpty W H g x (y + 1) = false → ¬(r k < (1 / 2 : ℚ)) →
          (isEmpty W H g (x + 1) (y + 1) && isEmpty W H g (x + 1) y) = false →
          (isEmpty W H g (x - 1) (y + 1) && isEmpty W H g (x - 1) y) = true →
          updateCell W H g x y r k = (moveSand g x y (x - 1) (y + 1), k + 1)) ∧
       (isEmpty W H g x (y + 1) = false →
          (isEmpty W H g (x - 1) (y + 1) && isEmpty W H g (x - 1) y) = false →
          (isEmpty W H g (x + 1) (y + 1) && isEmpty W H g (x + 1) y) = false →
          (updateCell W H g x y r k).1 = g))) ∧
    (∀ (r : Rand) (k : Nat),
      (simulateStep 3 3 { grid := threeGrid, ants := [], tick := 0 } r k).1.grid
        = threeAfter) := by
  constructor
  · intro W H g x y r k hsand
    have hnn : ¬(cellAt g x y ≠ Cell.Sand) := fun hne => hne hsand
    refine ⟨?_, ?_, ?_, ?_, ?_, ?_⟩
    · intro h1
      exact updateCell_fall W H g x y r k hsand h1
    · intro h1 h2 h3
      unfold updateCell
      rw [if_neg hnn, if_neg (by simp [h1]), if_pos h2, if_pos h3]
    · intro h1 h2 h3 h4
      unfold updateCell
      rw [if_neg hnn, if_neg (by simp [h1]), if_pos h2, if_neg (by simp [h3]), if_pos h4]
    · intro h1 h2 h3
      unfold updateCell
      rw [if_neg hnn, if_neg (by simp [h1]), if_neg h2, if_pos h3]
    · intro h1 h2 h3 h4
      unfold updateCell
      rw [if_neg hnn, if_neg (by simp [h1]), if_neg h2, if_neg (by simp [h3]), if_pos h4]
    · intro h1 h2 h3
      unfold updateCell
      rw [if_neg hnn, if_neg (by simp [h1])]
      by_cases hr : r k < (1 / 2 : ℚ)
      · rw [if_pos hr, if_neg (by simp [h2]), if_neg (by simp [h3])]
      · rw [if_neg hr, if_neg (by simp [h3]), if_neg (by simp [h2])]
  · intro r k
    have hpass : sandPass 3 3 threeGrid (yOrder 3)
        (xOrder 3 (decide ((0 + 1) % 2 = 0))) r k = (threeAfter, k) := by
      rw [show yOrder 3 = [Int.ofNat 1, Int.ofNat 0] from rfl,
        show xOrder 3 (decide ((0 + 1) % 2 = 0))
          = [Int.ofNat 2, Int.ofNat 1, Int.ofNat 0] from rfl]
      unfold sandPass
      simp only [List.foldl_cons, List.foldl_nil]
      rw [updateCell_skip 3 3 threeGrid (Int.ofNat 2) (Int.ofNat 1) r k (by decide)]
      dsimp only
      rw [updateCell_fall 3 3 threeGrid (Int.ofNat 1) (Int.ofNat 1) r k (by decide) (by decide)]
      rw [show moveSand threeGrid (Int.ofNat 1) (Int.ofNat 1) (Int.ofNat 1) (Int.ofNat 1 + 1)
        = threeAfter from by decide]
      dsimp only
      rw [updateCell_skip 3 3 threeAfter (Int.ofNat 0) (Int.ofNat 1) r k (by decide)]
      dsimp only
      rw [updateCell_skip 3 3 threeAfter (Int.ofNat 2) (Int.ofNat 0) r k (by decide)]
      dsimp only
      rw [updateCell_skip 3 3 threeAfter (Int.ofNat 1) (Int.ofNat 0) r k (by decide)]
      dsimp only
      rw [updateCell_skip 3 3 threeAfter (Int.ofNat 0) (Int.ofNat 0) r k (by decide)]
    unfold simulateStep
    dsimp only
    rw [hpass]
    rfl

/-- Witness for C3: the below-empty case applied at the concrete 3×3 grid. -/
theorem C3_settling_rule_witness :
    updateCell 3 3 threeGrid 1 1 halfRand 0 = (moveSand threeGrid 1 1 1 2, 0) :=
  (C3_settling_rule.1 3 3 threeGrid 1 1 halfRand 0 (by decide)).1 (by decide)

/-! ### Claim C7: full-scan pass order -/

/-- The full visiting order of one tick's sand sweep: rows from `H - 2` down
to `0`, columns ascending when `t` is even and descending when `t` is odd. -/
def sweepOrder (W H : Nat) (t : Nat) : List (Int × Int) :=
  (yOrder H).flatMap (fun y => (xOrder W (decide (t % 2 = 0))).map (fun x => (x, y)))

theorem sandPass_eq_bind (W H : Nat) (xs : List Int) (r : Rand) :
    ∀ (ys : List Int) (g : Grid) (k : Nat),
      sandPass W H g ys xs r k
        = (ys.flatMap (fun y => xs.map (fun x => (x, y)))).foldl
            (fun (q : Grid × Nat) p => updateCell W H q.1 p.1 p.2 r q.2) (g, k)
  | [], g, k => rfl
  | y :: ys, g, k => by
    show ys.foldl _ (xs.foldl _ (g, k)) = _
    rw [List.flatMap_cons, List.foldl_append, List.foldl_map]
    exact sandPass_eq_bind W H xs r ys _ _

theorem pairwise_of_all {α : Type _} (R : α → α → Prop) (h : ∀ a b, R a b) :
    ∀ l : List α, List.Pairwise R l
  | [] => List.Pairwise.nil
  | a :: l => List.Pairwise.cons (fun b _ => h a b) (pairwise_of_all R h l)

theorem sweepOrder_pairwise (W H t : Nat) :
    List.Pairwise (fun p q : Int × Int => q.2 ≤ p.2) (sweepOrder W H t) := by
  unfold sweepOrder
  have hys : List.Pairwise (fun a b : Int => b < a) (yOrder H) := by
    unfold yOrder
    rw [List.pairwise_reverse]
    exact (List.pairwise_lt_range _).map Int.ofNat (fun _ _ hab => Int.ofNat_lt.2 hab)
  generalize yOrder H = ys at hys
  induction ys with
  | nil => simp
  | cons y ys ih =>
    rw [List.flatMap_cons, List.pairwise_append]
    obtain ⟨hy, hys2⟩ := List.pairwise_cons.1 hys
    refine ⟨?_, ih hys2, ?_⟩
    · exact List.Pairwise.map (fun x => (x, y)) (fun a b _ => le_refl y)
        (pairwise_of_all (fun _ _ : Int => True) (fun _ _ => trivial) _)
    · intro p hp q hq
      obtain ⟨xp, _, rfl⟩ := List.mem_map.1 hp
      obtain ⟨y2, hy2, hq2⟩ := List.mem_flatMap.1 hq
      obtain ⟨xq, _, rfl⟩ := List.mem_map.1 hq2
      exact le_of_lt (hy y2 hy2)

theorem updateCell_move_shape (W H : Nat) (g : Grid) (x y : Int) (r : Rand)
    (k : Nat) :
    (updateCell W H g x y r k).1 = g ∨
    ∃ tx : Int, (tx = x ∨ tx = x - 1 ∨ tx = x + 1) ∧
      cellAt g x y = Cell.Sand ∧ isEmpty W H g tx (y + 1) = true ∧
      (updateCell W H g x y r k).1 = moveSand g x y tx (y + 1) := by
  unfold updateCell
  split
  · exact Or.inl rfl
  · rename_i hs
    push_neg at hs
    split
    · rename_i hemp
      exact Or.inr ⟨x, Or.inl rfl, hs, hemp, rfl⟩
    · split
      · split
        · rename_i hcond
          have hsplit : isEmpty W H g (x - 1) (y + 1) = true ∧
              isEmpty W H g (x - 1) y = true := by simpa using hcond
          exact Or.inr ⟨x - 1, Or.inr (Or.inl rfl), hs, hsplit.1, rfl⟩
        · split
          · rename_i hcond
            have hsplit : isEmpty W H g (x + 1) (y + 1) = true ∧
                isEmpty W H g (x + 1) y = true := by simpa using hcond
            exact Or.inr ⟨x + 1, Or.inr (Or.inr rfl), hs, hsplit.1, rfl⟩
          · exact Or.inl rfl
      · split
        · rename_i hcond
          have hsplit : isEmpty W H g (x + 1) (y + 1) = true ∧
              isEmpty W H g (x + 1) y = true := by simpa using hcond
          exact Or.inr ⟨x + 1, Or.inr (Or.inr rfl), hs, hsplit.1, rfl⟩
        · split
          · rename_i hcond
            have hsplit : isEmpty W H g (x - 1) (y + 1) = true ∧
                isEmpty W H g (x - 1) y = true := by simpa using hcond
            exact Or.inr ⟨x - 1, Or.inr (Or.inl rfl), hs, hsplit.1, rfl⟩
          · exact Or.inl rfl

/-- Claim C7: in the full-scan profile, `simulateStep` increments the tick and
then visits the grid exactly in `sweepOrder` (rows `H - 2` down to `0`;
columns left-to-right when the new tick count is even, right-to-left when it
is odd), followed by the ant pass. The second conjunct shows the row sequence
never increases along the sweep, and the third shows every `updateCell` move
leaves the grid unchanged or relocates one sand cell into row `y + 1` — a row
the sweep has already finished — so no particle is moved twice in one tick. -/
theorem C7_pass_order :
    (∀ (W H : Nat) (s : SandboxState) (r : Rand) (k : Nat),
        simulateStep W H s r k =
          (let sp := (sweepOrder W H (s.tick + 1)).foldl
              (fun (q : Grid × Nat) p => updateCell W H q.1 p.1 p.2 r q.2) (s.grid, k)
           let ap := antsPass W H sp.1 s.ants r sp.2
           ({ grid := ap.1, ants := ap.2.1, tick := s.tick + 1 }, ap.2.2))) ∧
    (∀ (W H t : Nat),
        List.Pairwise (fun p q : Int × Int => q.2 ≤ p.2) (sweepOrder W H t)) ∧
    (∀ (W H : Nat) (g : Grid) (x y : Int) (r : Rand) (k : Nat),
        (updateCell W H g x y r k).1 = g ∨
        ∃ tx : Int, (tx = x ∨ tx = x - 1 ∨ tx = x + 1) ∧
          cellAt g x y = Cell.Sand ∧ isEmpty W H g tx (y + 1) = true ∧
          (updateCell W H g x y r k).1 = moveSand g x y tx (y + 1)) := by
  refine ⟨?_, sweepOrder_pairwise, updateCell_move_shape⟩
  intro W H s r k
  unfold simulateStep sweepOrder
  dsimp only
  rw [sandPass_eq_bind]

/-! ### Claim C9: drop order and silent failure -/

/-- Claim C9: when an ant in the `dropping` state carries sand, `dropBehavior`
examines forward, above, behind in that exact order; the first empty cell is
converted to sand with `carrySand` cleared, and the ant returns to `walking`;
when none of the three is empty, the grid is completely unchanged, the ant
keeps `carrySand = true` (only its state changes back to `walking`), and the
function is total — no error path exists. -/
theorem C9_drop_order (W H : Nat) (g : Grid) (a : Ant) (hcarry : a.carrySand = true) :
    ((isEmpty W H g (⌊a.x⌋ + a.direction) ⌊a.y⌋ = true →
        dropBehavior W H g a
          = (setCell g (⌊a.x⌋ + a.direction) ⌊a.y⌋ Cell.Sand,
             { a with carrySand := false, state := AntState.walking })) ∧
     (isEmpty W H g (⌊a.x⌋ + a.direction) ⌊a.y⌋ = false →
      isEmpty W H g ⌊a.x⌋ (⌊a.y⌋ - 1) = true →
        dropBehavior W H g a
          = (setCell g ⌊a.x⌋ (⌊a.y⌋ - 1) Cell.Sand,
             { a with carrySand := false, state := AntState.walking })) ∧
     (isEmpty W H g (⌊a.x⌋ + a.direction) ⌊a.y⌋ = false →
      isEmpty W H g ⌊a.x⌋ (⌊a.y⌋ - 1) = false →
      isEmpty W H g (⌊a.x⌋ - a.direction) ⌊a.y⌋ = true →
        dropBehavior W H g a
          = (setCell g (⌊a.x⌋ - a.direction) ⌊a.y⌋ Cell.Sand,
             { a with carrySand := false, state := AntState.walking })) ∧
     (isEmpty W H g (⌊a.x⌋ + a.direction) ⌊a.y⌋ = false →
      isEmpty W H g ⌊a.x⌋ (⌊a.y⌋ - 1) = false →
      isEmpty W H g (⌊a.x⌋ - a.direction) ⌊a.y⌋ = false →
        dropBehavior W H g a = (g, { a with state := AntState.walking }))) := by
  have hguard : ¬((!a.carrySand) = true) := by simp [hcarry]
  refine ⟨?_, ?_, ?_, ?_⟩
  · intro h1
    unfold dropBehavior
    rw [if_neg hguard]
    simp only [dropLoop, add_zero, ← sub_eq_add_neg]
    rw [if_pos h1]
  · intro h1 h2
    unfold dropBehavior
    rw [if_neg hguard]
    simp only [dropLoop, add_zero, ← sub_eq_add_neg]
    rw [if_neg (by simp [h1]), if_pos h2]
  · intro h1 h2 h3
    unfold dropBehavior
    rw [if_neg hguard]
    simp only [dropLoop, add_zero, ← sub_eq_add_neg]
    rw [if_neg (by simp [h1]), if_neg (by simp [h2]), if_pos h3]
  · intro h1 h2 h3
    unfold dropBehavior
    rw [if_neg hguard]
    simp only [dropLoop, add_zero, ← sub_eq_add_neg]
    rw [if_neg (by simp [h1]), if_neg (by simp [h2]), if_neg (by simp [h3])]

/-- Carrying ant used by the C9 witness: forward cell is a wall, above is
empty, so the drop lands in the "above" cell. -/
def w9Ant : Ant :=
  { x := 1 / 2, y := 3 / 2, direction := 1, carrySand := true,
    state := AntState.dropping, digCooldown := 0 }

/-- Witness for C9: the "above" drop case at a concrete 3×3 grid. -/
theorem C9_drop_order_witness :
    dropBehavior 3 3 w1State.grid w9Ant
      = (setCell w1State.grid ⌊w9Ant.x⌋ (⌊w9Ant.y⌋ - 1) Cell.Sand,
         { w9Ant with carrySand := false, state := AntState.walking }) :=
  (C9_drop_order 3 3 w1State.grid w9Ant (by decide)).2.1 (by decide) (by decide)

/-! ### Claim C10: walls are permanent -/

/-- Two grids agree on where the walls are. -/
def wallEq (g1 g : Grid) : Prop :=
  ∀ x y : Int, cellAt g1 x y = Cell.Wall ↔ cellAt g x y = Cell.Wall

theorem wallEq_refl (g : Grid) : wallEq g g := fun _ _ => Iff.rfl

theorem wallEq_trans {g2 g1 g : Grid} (h2 : wallEq g2 g1) (h1 : wallEq g1 g) :
    wallEq g2 g := fun x y => (h2 x y).trans (h1 x y)

/-- A write of a non-wall value at a non-wall cell never changes the wall set. -/
theorem wallEq_setCell {g : Grid} {a b : Int} {c : Cell} (hc : c ≠ Cell.Wall)
    (hold : cellAt g a b ≠ Cell.Wall) : wallEq (setCell g a b c) g := by
  intro x y
  unfold setCell
  split
  · rename_i hguard
    unfold cellAt
    split
    · rename_i hxy
      by_cases hy : y.toNat = b.toNat
      · by_cases hlen : b.toNat < g.length
        · rw [hy, getD_set_eq _ _ _ _ hlen]
          by_cases hx : x.toNat = a.toNat
          · by_cases hxlen : a.toNat < (g.getD b.toNat []).length
            · rw [hx, getD_set_eq _ _ _ _ hxlen]
              have hold2 : (g.getD b.toNat []).getD a.toNat Cell.Empty ≠ Cell.Wall := by
                unfold cellAt at hold
                rwa [if_pos hguard] at hold
              exact ⟨fun h => absurd h hc, fun h => absurd h hold2⟩
            · rw [List.set_eq_of_length_le (Nat.le_of_not_lt hxlen)]
          · rw [getD_set_ne _ _ _ (fun hh => hx hh.symm)]
        · rw [List.set_eq_of_length_le (Nat.le_of_not_lt hlen)]
      · rw [getD_set_ne _ _ _ (fun hh => hy hh.symm)]
    · exact Iff.rfl
  · exact Iff.rfl

theorem wallEq_moveSand {g : Grid} {x y tx ty : Int}
    (hs : cellAt g x y = Cell.Sand) (hemp : cellAt g tx ty = Cell.Empty) :
    wallEq (moveSand g x y tx ty) g := by
  have h1 : wallEq (setCell g x y Cell.Empty) g :=
    wallEq_setCell (fun hcc => by cases hcc) (by rw [hs]; intro hcc; cases hcc)
  have h2 : cellAt (setCell g x y Cell.Empty) tx ty ≠ Cell.Wall := by
    intro hcc
    have := (h1 tx ty).1 hcc
    rw [hemp] at this
    cases this
  exact wallEq_trans (wallEq_setCell (fun hcc => by cases hcc) h2) h1

theorem wallEq_updateCell (W H : Nat) (g : Grid) (x y : Int) (r : Rand) (k : Nat) :
    wallEq (updateCell W H g x y r k).1 g := by
  rcases updateCell_move_shape W H g x y r k with h | ⟨tx, _, hs, hemp, h⟩
  · rw [h]; exact wallEq_refl g
  · rw [h]
    exact wallEq_moveSand hs (isEmpty_iff.1 hemp).2.2.2.2

theorem wallEq_digLoop (W H : Nat) (g : Grid) (a : Ant) (x y : Int) :
    ∀ ts : List (Int × Int), wallEq (digLoop W H g a x y ts).1 g
  | [] => wallEq_refl g
  | (dx, dy) :: rest => by
    unfold digLoop
    split
    · rename_i hdig
      exact wallEq_setCell (fun hcc => by cases hcc)
        (by rw [(isDiggable_iff.1 hdig).2.2.2.2]; intro hcc; cases hcc)
    · exact wallEq_digLoop W H g a x y rest

theorem wallEq_dropLoop (W H : Nat) (g : Grid) (a : Ant) (x y : Int) :
    ∀ ts : List (Int × Int), wallEq (dropLoop W H g a x y ts).1 g
  | [] => wallEq_refl g
  | (dx, dy) :: rest => by
    unfold dropLoop
    split
    · rename_i hemp
      exact wallEq_setCell (fun hcc => by cases hcc)
        (by rw [(isEmpty_iff.1 hemp).2.2.2.2]; intro hcc; cases hcc)
    · exact wallEq_dropLoop W H g a x y rest

theorem wallEq_updateAntBody (W H : Nat) (g : Grid) (a0 : Ant) (r : Rand) (k : Nat) :
    wallEq (updateAntBody W H g a0 r k).1 g := by
  unfold updateAntBody
  split
  · exact wallEq_refl g
  · split
    · dsimp only
      exact wallEq_refl g
    · dsimp only
      unfold digBehavior
      split
      · exact wallEq_refl g
      · exact wallEq_digLoop W H g _ _ _ _
    · dsimp only
      unfold dropBehavior
      split
      · exact wallEq_refl g
      · exact wallEq_dropLoop W H g _ _ _ _

theorem wallEq_updateAnt (W H : Nat) (g : Grid) (a : Ant) (r : Rand) (k : Nat) :
    wallEq (updateAnt W H g a r k).1 g :=
  wallEq_updateAntBody W H g _ r k

theorem wallEq_antsPass (W H : Nat) (r : Rand) :
    ∀ (ants : List Ant) (g : Grid) (k : Nat), wallEq (antsPass W H g ants r k).1 g
  | [], g, k => wallEq_refl g
  | a :: rest, g, k => by
    unfold antsPass
    dsimp only
    exact wallEq_trans
      (wallEq_antsPass W H r rest (updateAnt W H g a r k).1 (updateAnt W H g a r k).2.2)
      (wallEq_updateAnt W H g a r k)

theorem wallEq_sandPass (W H : Nat) (ys xs : List Int) (r : Rand) (g : Grid) (k : Nat) :
    wallEq (sandPass W H g ys xs r k).1 g := by
  unfold sandPass
  have main := foldl_inv (P := fun p : Grid × Nat => wallEq p.1 g)
    (fun (p : Grid × Nat) y =>
      xs.foldl (fun (q : Grid × Nat) x => updateCell W H q.1 x y r q.2) p)
    ys (g, k) (wallEq_refl g) ?_
  · exact main
  · intro y _ c hc
    refine foldl_inv (P := fun p : Grid × Nat => wallEq p.1 g) _ xs c hc ?_
    intro x _ q hq
    exact wallEq_trans (wallEq_updateCell W H q.1 x y r q.2) hq

/-- Claim C10: no sandbox operation — sand movement in `simulateStep`'s sweep,
ant digging, ant dropping, `addSand`, or `removeSand` — ever writes to a cell
whose current value is `Wall` (each writes only to cells verified empty or
sand), so the set of wall cells is exactly preserved by every operation. -/
theorem C10_walls_permanent :
    (∀ (W H : Nat) (s : SandboxState) (r : Rand) (k : Nat) (x y : Int),
        cellAt (simulateStep W H s r k).1.grid x y = Cell.Wall ↔
          cellAt s.grid x y = Cell.Wall) ∧
    (∀ (W H : Nat) (g : Grid) (px py radius x y : Int),
        cellAt (addSand W H g px py radius) x y = Cell.Wall ↔
          cellAt g x y = Cell.Wall) ∧
    (∀ (W H : Nat) (g : Grid) (px py radius x y : Int),
        cellAt (removeSand W H g px py radius) x y = Cell.Wall ↔
          cellAt g x y = Cell.Wall) := by
  refine ⟨?_, ?_, ?_⟩
  · intro W H s r k x y
    unfold simulateStep
    dsimp only
    refine wallEq_trans (wallEq_antsPass W H r s.ants _ _) (wallEq_sandPass W H _ _ r _ _) x y
  · intro W H g px py radius x y
    unfold addSand
    refine foldl_inv (P := fun g1 : Grid => wallEq g1 g) _ _ g (wallEq_refl g) ?_ x y
    intro dy _ g1 hg1
    refine foldl_inv (P := fun g2 : Grid => wallEq g2 g) _ _ g1 hg1 ?_
    intro dx _ g2 hg2
    dsimp only
    split
    · exact hg2
    · split
      · exact hg2
      · split
        · rename_i hcell
          exact wallEq_trans
            (wallEq_setCell (fun hcc => by cases hcc)
              (by rw [hcell]; intro hcc; cases hcc)) hg2
        · exact hg2
  · intro W H g px py radius x y
    unfold removeSand
    refine foldl_inv (P := fun g1 : Grid => wallEq g1 g) _ _ g (wallEq_refl g) ?_ x y
    intro dy _ g1 hg1
    refine foldl_inv (P := fun g2 : Grid => wallEq g2 g) _ _ g1 hg1 ?_
    intro dx _ g2 hg2
    dsimp only
    split
    · exact hg2
    · split
      · exact hg2
      · split
        · rename_i hcell
          exact wallEq_trans
            (wallEq_setCell (fun hcc => by cases hcc)
              (by rw [hcell]; intro hcc; cases hcc)) hg2
        · exact hg2

end Sandbox
/-! ## List membership helper -/

theorem mem_of_mem_set {α : Type _} {l : List α} {i : Nat} {a b : α}
    (h : b ∈ l.set i a) : b ∈ l ∨ b = a := by
  induction l generalizing i with
  | nil => simp at h
  | cons c t ih =>
    cases i with
    | zero =>
      rcases List.mem_cons.1 h with h | h
      · exact Or.inr h
      · exact Or.inl (List.mem_cons.2 (Or.inr h))
    | succ n =>
      rcases List.mem_cons.1 h with h | h
      · exact Or.inl (List.mem_cons.2 (Or.inl h))
      · rcases ih h with h | h
        · exact Or.inl (List.mem_cons.2 (Or.inr h))
        · exact Or.inr h

/-! ## Physics-profile accessors (the unnamed ant-farm simulation logic file)

`isSolid` and `isPassable` floor their continuous coordinates and treat any
out-of-bounds position as solid and not passable respectively. -/

namespace AF

inductive CellType : Type where
  | Air : CellType
  | Dirt : CellType
  | Sand : CellType
  | Tunnel : CellType
deriving DecidableEq, Repr

abbrev AWorld := List (List CellType)

/-- Source `isSolid` of the physics profile: floor, then out of bounds is
solid, else dirt or sand. -/
def isSolid (W H : Nat) (world : AWorld) (x y : ℚ) : Bool :=
  if ⌊x⌋ < 0 ∨ ⌊x⌋ ≥ (W : Int) ∨ ⌊y⌋ < 0 ∨ ⌊y⌋ ≥ (H : Int) then true
  else
    (world.getD (⌊y⌋).toNat []).getD (⌊x⌋).toNat CellType.Air = CellType.Dirt ∨
    (world.getD (⌊y⌋).toNat []).getD (⌊x⌋).toNat CellType.Air = CellType.Sand

/-- Source `isPassable` of the physics profile: floor, then out of bounds is
not passable, else air or tunnel. -/
def isPassable (W H : Nat) (world : AWorld) (x y : ℚ) : Bool :=
  if ⌊x⌋ < 0 ∨ ⌊x⌋ ≥ (W : Int) ∨ ⌊y⌋ < 0 ∨ ⌊y⌋ ≥ (H : Int) then false
  else
    (world.getD (⌊y⌋).toNat []).getD (⌊x⌋).toNat CellType.Air = CellType.Air ∨
    (world.getD (⌊y⌋).toNat []).getD (⌊x⌋).toNat CellType.Air = CellType.Tunnel

end AF

/-! ## Ant-farm sim world (`src/sim/world.ts`, `src/sim/gameState.ts`) and the
pheromone field (`src/sim` pheromone module) -/

namespace SimWorld

inductive CellType : Type where
  | dirt : CellType
  | air : CellType
  | stone : CellType
deriving DecidableEq, Repr

structure WorldCell : Type where
  type : CellType
  pheromoneFood : ℚ
  pheromoneHome : ℚ
  isNest : Bool
deriving DecidableEq, Repr

instance : Inhabited WorldCell := ⟨⟨CellType.air, 0, 0, false⟩⟩

structure World : Type where
  width : Nat
  height : Nat
  cells : List WorldCell
deriving DecidableEq, Repr

/-- Source `getCellIndex`: `y * width + x`. -/
def getCellIndex (x y width : Nat) : Nat :=
  y * width + x

/-- Source `getCell`: `null` out of bounds, else the flat-array cell. -/
def getCell (w : World) (x y : Int) : Option WorldCell :=
  if 0 ≤ x ∧ x < (w.width : Int) ∧ 0 ≤ y ∧ y < (w.height : Int) then
    w.cells.get? (getCellIndex x.toNat y.toNat w.width)
  else none

/-- Source `isSolidCell`: `cell !== null && (dirt || stone)` — in particular
out-of-bounds coordinates yield `false`, not `true`. -/
def isSolidCell (w : World) (x y : Int) : Bool :=
  match getCell w x y with
  | none => false
  | some c => c.type = CellType.dirt ∨ c.type = CellType.stone

/-- Shared body of `setCellToAir` / `setCellToDirt`: mutate the cell's type
in place if the coordinates are in bounds. -/
def setCellType (w : World) (x y : Int) (t : CellType) : World :=
  match getCell w x y with
  | none => w
  | some c =>
    { w with
      cells := w.cells.set (getCellIndex x.toNat y.toNat w.width) ({ c with type := t }) }

def setCellToAir (w : World) (x y : Int) : World :=
  setCellType w x y CellType.air

def setCellToDirt (w : World) (x y : Int) : World :=
  setCellType w x y CellType.dirt

/-! ### Pheromone decay, diffusion, deposit -/

def DECAY_RATE : ℚ := 1 / 2

def DIFFUSION_FACTOR : ℚ := 1 / 5

/-- Decay pass of `updatePheromones`: both fields decay toward 0, floored. -/
def decayCell (dt : ℚ) (c : WorldCell) : WorldCell :=
  { c with pheromoneFood := max 0 (c.pheromoneFood - DECAY_RATE * dt),
           pheromoneHome := max 0 (c.pheromoneHome - DECAY_RATE * dt) }

/-- The four orthogonal neighbor reads of the diffusion pass. -/
def neighborCells (w : World) (x y : Int) : List (Option WorldCell) :=
  [getCell w (x + 1) y, getCell w (x - 1) y, getCell w x (y + 1), getCell w x (y - 1)]

/-- Diffusion value pair `(food, home)` computed for the cell at `(x, y)` of
the decayed snapshot: mean of self and in-bounds neighbors, then exponential
smoothing by `DIFFUSION_FACTOR * dt`. -/
def diffusedPair (W : Nat) (w1 : World) (dt : ℚ) (x y : Nat) : ℚ × ℚ :=
  let c := w1.cells.getD (y * W + x) default
  let acc := (neighborCells w1 x y).foldl
    (fun (acc : ℚ × ℚ × ℚ) oc =>
      match oc with
      | some n => (acc.1 + n.pheromoneFood, acc.2.1 + n.pheromoneHome, acc.2.2 + 1)
      | none => acc)
    (c.pheromoneFood, c.pheromoneHome, 1)
  (c.pheromoneFood + (acc.1 / acc.2.2 - c.pheromoneFood) * DIFFUSION_FACTOR * dt,
   c.pheromoneHome + (acc.2.1 / acc.2.2 - c.pheromoneHome) * DIFFUSION_FACTOR * dt)

/-- Source `updatePheromones`: decay in place, diffuse into scratch buffers
(indices `y * W + x` for `y < H`, `x < W`; other indices keep their decayed
values), then write back clamped to `[0, 1]`. -/
def updatePheromones (W H : Nat) (w : World) (dt : ℚ) : World :=
  let w1 : World := { w with cells := w.cells.map (decayCell dt) }
  let cells2 := (List.range w1.cells.length).map (fun i =>
    let c := w1.cells.getD i default
    let p : ℚ × ℚ :=
      if i < W * H then diffusedPair W w1 dt (i % W) (i / W)
      else (c.pheromoneFood, c.pheromoneHome)
    { c with pheromoneFood := max 0 (min 1 p.1),
             pheromoneHome := max 0 (min 1 p.2) })
  { w with cells := cells2 }

/-- Source `depositFoodPheromone`: floor the position, add the amount clamped
at 1 if the cell exists. -/
def depositFoodPheromone (w : World) (x y amount : ℚ) : World :=
  match getCell w ⌊x⌋ ⌊y⌋ with
  | none => w
  | some c =>
    { w with
      cells := w.cells.set (getCellIndex (⌊x⌋).toNat (⌊y⌋).toNat w.width)
        ({ c with pheromoneFood := min 1 (c.pheromoneFood + amount) }) }

/-- Source `depositHomePheromone`. -/
def depositHomePheromone (w : World) (x y amount : ℚ) : World :=
  match getCell w ⌊x⌋ ⌊y⌋ with
  | none => w
  | some c =>
    { w with
      cells := w.cells.set (getCellIndex (⌊x⌋).toNat (⌊y⌋).toNat w.width)
        ({ c with pheromoneHome := min 1 (c.pheromoneHome + amount) }) }

/-- All pheromone values of the world lie in `[0, 1]`. -/
def pheromonesInRange (w : World) : Prop :=
  ∀ c ∈ w.cells, 0 ≤ c.pheromoneFood ∧ c.pheromoneFood ≤ 1 ∧
    0 ≤ c.pheromoneHome ∧ c.pheromoneHome ≤ 1

instance (w : World) : Decidable (pheromonesInRange w) := by
  unfold pheromonesInRange
  infer_instance

theorem getCell_mem {w : World} {x y : Int} {c : WorldCell}
    (h : getCell w x y = some c) : c ∈ w.cells := by
  unfold getCell at h
  split at h
  · exact List.get?_mem h
  · cases h

end SimWorld
/-! ## Claim C2: closed-world boundary -/

/-- Concrete 2×2 all-dirt ant-farm world used by the C2 counterexample. -/
def c2World : SimWorld.World :=
  { width := 2, height := 2,
    cells := [⟨SimWorld.CellType.dirt, 0, 0, false⟩, ⟨SimWorld.CellType.dirt, 0, 0, false⟩,
              ⟨SimWorld.CellType.dirt, 0, 0, false⟩, ⟨SimWorld.CellType.dirt, 0, 0, false⟩] }

/-- Counterexample to claim C2 as stated: `isSolidCell` in the ant-farm sim
returns `false` (not solid) at the out-of-bounds coordinate `(-1, 0)`, while
the claim asserts that every solidity accessor — `isSolidCell` included —
returns solid there. -/
theorem C2_closed_world_counterexample :
    SimWorld.isSolidCell c2World (-1) 0 = false := by
  decide

/-- Claim C2 amended: out-of-bounds coordinates are solid and not
empty/passable for the sandbox accessors (`isSolid`, `isEmpty`, `isDiggable`)
and for the physics profile's `isSolid`/`isPassable` (which floor their
continuous inputs), but `isSolidCell` of the ant-farm sim deviates from the
claim: its `cell !== null` guard makes every out-of-bounds read return
`false` (not solid). -/
theorem C2_closed_world_amended :
    (∀ (W H : Nat) (g : Sandbox.Grid) (x y : Int),
        x < 0 ∨ x ≥ (W : Int) ∨ y < 0 ∨ y ≥ (H : Int) →
        Sandbox.isSolid W H g x y = true ∧ Sandbox.isEmpty W H g x y = false ∧
          Sandbox.isDiggable W H g x y = false) ∧
    (∀ (W H : Nat) (world : AF.AWorld) (x y : ℚ),
        ⌊x⌋ < 0 ∨ ⌊x⌋ ≥ (W : Int) ∨ ⌊y⌋ < 0 ∨ ⌊y⌋ ≥ (H : Int) →
        AF.isSolid W H world x y = true ∧ AF.isPassable W H world x y = false) ∧
    (∀ (w : SimWorld.World) (x y : Int),
        x < 0 ∨ x ≥ (w.width : Int) ∨ y < 0 ∨ y ≥ (w.height : Int) →
        SimWorld.isSolidCell w x y = false) := by
  refine ⟨?_, ?_, ?_⟩
  · intro W H g x y h
    unfold Sandbox.isSolid Sandbox.isEmpty Sandbox.isDiggable
    rw [if_pos h, if_pos h, if_pos h]
    exact ⟨rfl, rfl, rfl⟩
  · intro W H world x y h
    unfold AF.isSolid AF.isPassable
    rw [if_pos h, if_pos h]
    exact ⟨rfl, rfl⟩
  · intro w x y h
    unfold SimWorld.isSolidCell SimWorld.getCell
    rw [if_neg]
    intro hc
    rcases h with h | h | h | h <;> omega

/-- Witness for the amended C2 at concrete out-of-bounds coordinates. -/
theorem C2_closed_world_amended_witness :
    Sandbox.isSolid 3 3 [] (-1) 0 = true ∧
      AF.isSolid 3 3 [] (-1 : ℚ) 0 = true ∧
      SimWorld.isSolidCell c2World 2 0 = false :=
  ⟨(C2_closed_world_amended.1 3 3 [] (-1) 0 (by decide)).1,
   (C2_closed_world_amended.2.1 3 3 [] (-1 : ℚ) 0 (by decide)).1,
   C2_closed_world_amended.2.2 c2World 2 0 (by decide)⟩

/-! ## Claim C5: pheromone range invariant -/

/-- Claim C5: after `updatePheromones` (decay, 4-neighbor diffusion into
scratch buffers, clamped write-back) and after `depositFoodPheromone` /
`depositHomePheromone` (adds clamped at 1; every call site passes the
non-negative amount `PHEROMONE_DEPOSIT_RATE * dt`), all `pheromoneFood` and
`pheromoneHome` values lie in `[0, 1]`, for every starting state whose values
lie in `[0, 1]` and every non-negative `dt`. -/
theorem C5_pheromone_range :
    (∀ (W H : Nat) (w : SimWorld.World) (dt : ℚ),
        SimWorld.pheromonesInRange w → 0 ≤ dt →
        SimWorld.pheromonesInRange (SimWorld.updatePheromones W H w dt)) ∧
    (∀ (w : SimWorld.World) (x y amount : ℚ),
        SimWorld.pheromonesInRange w → 0 ≤ amount →
        SimWorld.pheromonesInRange (SimWorld.depositFoodPheromone w x y amount)) ∧
    (∀ (w : SimWorld.World) (x y amount : ℚ),
        SimWorld.pheromonesInRange w → 0 ≤ amount →
        SimWorld.pheromonesInRange (SimWorld.depositHomePheromone w x y amount)) := by
  refine ⟨?_, ?_, ?_⟩
  · intro W H w dt _ _
    intro c hc
    unfold SimWorld.updatePheromones at hc
    dsimp only at hc
    obtain ⟨i, _, rfl⟩ := List.mem_map.1 hc
    dsimp only
    refine ⟨le_max_left 0 _, max_le (by norm_num) (min_le_left 1 _),
      le_max_left 0 _, max_le (by norm_num) (min_le_left 1 _)⟩
  · intro w x y amount hw hamt
    intro c hc
    unfold SimWorld.depositFoodPheromone at hc
    split at hc
    · exact hw c hc
    · rename_i c0 hget
      dsimp only at hc
      rcases mem_of_mem_set hc with hmem | rfl
      · exact hw c hmem
      · have h0 := hw c0 (SimWorld.getCell_mem hget)
        dsimp only
        refine ⟨le_min (by norm_num) (add_nonneg h0.1 hamt), min_le_left 1 _,
          h0.2.2.1, h0.2.2.2⟩
  · intro w x y amount hw hamt
    intro c hc
    unfold SimWorld.depositHomePheromone at hc
    split at hc
    · exact hw c hc
    · rename_i c0 hget
      dsimp only at hc
      rcases mem_of_mem_set hc with hmem | rfl
      · exact hw c hmem
      · have h0 := hw c0 (SimWorld.getCell_mem hget)
        dsimp only
        refine ⟨h0.1, h0.2.1,
          le_min (by norm_num) (add_nonneg h0.2.2.1 hamt), min_le_left 1 _⟩

/-- Witness for C5 at a concrete world, `dt`, and deposit amount. -/
theorem C5_pheromone_range_witness :
    SimWorld.pheromonesInRange
        (SimWorld.updatePheromones 2 2 c2World (1 / 4 : ℚ)) ∧
      SimWorld.pheromonesInRange
        (SimWorld.depositFoodPheromone c2World (1 / 2 : ℚ) (1 / 2 : ℚ) (3 / 5 : ℚ)) ∧
      SimWorld.pheromonesInRange
        (SimWorld.depositHomePheromone c2World (1 / 2 : ℚ) (1 / 2 : ℚ) (3 / 5 : ℚ)) :=
  ⟨C5_pheromone_range.1 2 2 c2World (1 / 4 : ℚ) (by decide) (by decide),
   C5_pheromone_range.2.1 c2World (1 / 2 : ℚ) (1 / 2 : ℚ) (3 / 5 : ℚ) (by decide) (by decide),
   C5_pheromone_range.2.2 c2World (1 / 2 : ℚ) (1 / 2 : ℚ) (3 / 5 : ℚ) (by decide) (by decide)⟩
/-! ## Grid-stepping state-machine ant-farm profile (the second `simulateStep`
variant of `src/sim`): deterministic dig/carry/drop cycle on the `SimWorld`
grid, with per-frame (not dt-scaled) random transition chances. -/

namespace SM

abbrev Rand := Nat → ℚ

def WORLD_WIDTH : Nat := 192

def WORLD_HEIGHT : Nat := 108

def SOIL_START_Y : Nat := 12

inductive AntMode : Type where
  | idleSurface : AntMode
  | diggingDown : AntMode
  | carryingUp : AntMode
  | carryingSurface : AntMode
deriving DecidableEq, Repr

inductive AntRole : Type where
  | worker : AntRole
  | scout : AntRole
deriving DecidableEq, Repr

inductive SAntState : Type where
  | idle : SAntState
  | wandering : SAntState
  | seekingFood : SAntState
  | returningHome : SAntState
  | digging : SAntState
  | carryingDirt : SAntState
  | carryingFood : SAntState
deriving DecidableEq, Repr

inductive Carrying : Type where
  | none : Carrying
  | dirt : Carrying
  | food : Carrying
deriving DecidableEq, Repr

structure SAnt : Type where
  id : String
  x : ℚ
  y : ℚ
  vx : ℚ
  vy : ℚ
  role : AntRole
  state : SAntState
  hunger : ℚ
  carrying : Carrying
  mode : AntMode
  hasDirt : Bool
  homeColumn : Int
deriving DecidableEq, Repr

structure Colony : Type where
  foodStored : Int
  waterStored : Int
  population : Int
  queenAlive : Bool
deriving DecidableEq, Repr

structure Settings : Type where
  simSpeed : ℚ
  showDebugOverlays : Bool
deriving DecidableEq, Repr

structure MetaInfo : Type where
  version : Nat
deriving DecidableEq, Repr

structure DirtParticle : Type where
  x : ℚ
  y : ℚ
  vx : ℚ
  vy : ℚ
deriving DecidableEq, Repr

structure GameState : Type where
  meta : MetaInfo
  world : SimWorld.World
  colony : Colony
  ants : List SAnt
  particles : List DirtParticle
  foodItems : List (ℚ × ℚ)
  waterItems : List (ℚ × ℚ)
  settings : Settings
deriving DecidableEq, Repr

/-- Source `clamp`: `Math.max(min, Math.min(max, value))`. -/
def clamp (value lo hi : ℚ) : ℚ :=
  max lo (min hi value)

/-- Scan rows `SOIL_START_Y - 1` down to `0` for the first air cell. -/
def findDropLoop (w : SimWorld.World) (x : Int) : List Int → Int
  | [] => -1
  | y :: rest =>
    match SimWorld.getCell w x y with
    | none => findDropLoop w x rest
    | some c =>
      if c.type = SimWorld.CellType.air then y else findDropLoop w x rest

/-- Source `findSurfaceDropY`: first air cell at or above the soil line in
column `x`, or `-1`. -/
def findSurfaceDropY (w : SimWorld.World) (x : Int) : Int :=
  findDropLoop w x (((List.range SOIL_START_Y).map Int.ofNat).reverse)

/-- Source `updateIdleSurface`: random surface wobble (scaled by `dt`), snap
to the surface row, then a per-frame 2% chance (not scaled by `dt`) to start
digging when the cell below the current column is diggable. -/
def updateIdleSurface (a : SAnt) (w : SimWorld.World) (dt : ℚ) (r : Rand) (k : Nat) :
    SAnt × Nat :=
  let a1 := { a with x := a.x + (if r k < (1 / 2 : ℚ) then (-1 : ℚ) else 1) * (20 * dt) }
  let a2 := { a1 with x := clamp a1.x (1 / 2) ((WORLD_WIDTH : ℚ) - 1 / 2) }
  let a3 := { a2 with y := (SOIL_START_Y : ℚ) - 1 / 2 }
  let col : Int := ⌊a3.x⌋
  let canDig : Bool :=
    match SimWorld.getCell w col (SOIL_START_Y : Int) with
    | some c => c.type = SimWorld.CellType.dirt ∨ c.type = SimWorld.CellType.stone
    | none => false
  if canDig then
    if r (k + 1) < (1 / 50 : ℚ) then
      ({ a3 with homeColumn := col, mode := AntMode.diggingDown,
                 y := (SOIL_START_Y : ℚ) - 1 / 2 }, k + 2)
    else (a3, k + 2)
  else (a3, k + 1)

/-- Source `updateDiggingDown`: stay centered in the shaft, move down by
`30 * dt`, stop at the world bottom, dig the first dirt/stone cell hit. -/
def updateDiggingDown (a : SAnt) (w : SimWorld.World) (dt : ℚ) :
    SAnt × SimWorld.World :=
  let a1 := { a with x := (a.homeColumn : ℚ) + 1 / 2 }
  let a2 := { a1 with y := a1.y + 30 * dt }
  let cellY : Int := ⌊a2.y + 1 / 2⌋
  if cellY ≥ (WORLD_HEIGHT : Int) - 1 then ({ a2 with mode := AntMode.carryingUp }, w)
  else
    match SimWorld.getCell w a2.homeColumn cellY with
    | some c =>
      if c.type = SimWorld.CellType.dirt ∨ c.type = SimWorld.CellType.stone then
        ({ a2 with hasDirt := true, carrying := Carrying.dirt,
                   y := (cellY : ℚ) - 1 / 2, mode := AntMode.carryingUp },
         SimWorld.setCellToAir w a2.homeColumn cellY)
      else (a2, w)
    | none => (a2, w)

/-- Source `updateCarryingUp`: climb straight up by `30 * dt`, snap to the
surface when reached. -/
def updateCarryingUp (a : SAnt) (dt : ℚ) : SAnt :=
  let a1 := { a with x := (a.homeColumn : ℚ) + 1 / 2 }
  let a2 := { a1 with y := a1.y - 30 * dt }
  if a2.y < (SOIL_START_Y : ℚ) - 1 / 2 then
    { a2 with mode := AntMode.carryingSurface, y := (SOIL_START_Y : ℚ) - 1 / 2 }
  else a2

/-- Source `updateCarryingSurface`: stay at the surface, drift toward the home
column by a `dt`-independent bias plus a `dt`-scaled random wander, then a
per-frame 5% drop chance (not scaled by `dt`), skipping columns that would
clog the tunnel entrance. -/
def updateCarryingSurface (a : SAnt) (w : SimWorld.World) (dt : ℚ) (r : Rand)
    (k : Nat) : SAnt × SimWorld.World × Nat :=
  let a1 := { a with y := (SOIL_START_Y : ℚ) - 1 / 2 }
  let a2 := { a1 with
    x := a1.x + ((a1.homeColumn : ℚ) + 1 / 2 - a1.x) * (1 / 10)
      + (r k - 1 / 2) * (15 * dt) }
  let a3 := { a2 with x := clamp a2.x (1 / 2) ((WORLD_WIDTH : ℚ) - 1 / 2) }
  if r (k + 1) < (1 / 20 : ℚ) then
    let col : Int := ⌊a3.x⌋
    if |col - a3.homeColumn| < 1 then (a3, w, k + 2)
    else
      let dropY := findSurfaceDropY w col
      if dropY ≥ 0 then
        ({ a3 with hasDirt := false, carrying := Carrying.none,
                   mode := AntMode.diggingDown, x := (a3.homeColumn : ℚ) + 1 / 2,
                   y := (SOIL_START_Y : ℚ) - 1 / 2 },
         SimWorld.setCellToDirt w col dropY, k + 2)
      else (a3, w, k + 2)
  else (a3, w, k + 2)

/-- Source `updateAnt` of the state-machine profile: mode dispatch followed by
the world-bounds clamp. -/
def updateAntSM (a : SAnt) (w : SimWorld.World) (dt : ℚ) (r : Rand) (k : Nat) :
    SAnt × SimWorld.World × Nat :=
  let res : SAnt × SimWorld.World × Nat :=
    match a.mode with
    | AntMode.idleSurface =>
      let p := updateIdleSurface a w dt r k
      (p.1, w, p.2)
    | AntMode.diggingDown =>
      let p := updateDiggingDown a w dt
      (p.1, p.2, k)
    | AntMode.carryingUp => (updateCarryingUp a dt, w, k)
    | AntMode.carryingSurface => updateCarryingSurface a w dt r k
  ({ res.1 with x := clamp res.1.x (1 / 2) ((WORLD_WIDTH : ℚ) - 1 / 2),
                y := clamp res.1.y 0 ((WORLD_HEIGHT : ℚ) - 1 / 2) },
   res.2.1, res.2.2)

/-- The per-ant loop of `simulateStep`, threading the world and the random
cursor. -/
def antsLoop : List SAnt → SimWorld.World → ℚ → Rand → Nat →
    List SAnt × SimWorld.World × Nat
  | [], w, _, _, k => ([], w, k)
  | a :: rest, w, dt, r, k =>
    let t := updateAntSM a w dt r k
    let s := antsLoop rest t.2.1 dt r t.2.2
    (t.1 :: s.1, s.2.1, s.2.2)

/-- Source `simulateStep` of the state-machine profile: paused check, ants,
dirt particles (disabled no-op), then pheromone decay and diffusion. -/
def simulateStep (gs : GameState) (dt : ℚ) (r : Rand) (k : Nat) : GameState × Nat :=
  if gs.settings.simSpeed = 0 then (gs, k)
  else
    let t := antsLoop gs.ants gs.world (dt * gs.settings.simSpeed) r k
    let w2 := SimWorld.updatePheromones WORLD_WIDTH WORLD_HEIGHT t.2.1
      (dt * gs.settings.simSpeed)
    ({ gs with ants := t.1, world := w2 }, t.2.2)

end SM
/-! ## Claim C6: zero delta-time behavior of the state-machine profile -/

theorem get?_range_map {α : Type _} (f : Nat → α) (n i : Nat) (h : i < n) :
    ((List.range n).map f).get? i = some (f i) := by
  rw [List.get?_map, List.get?_range h]
  rfl

/-- Initial-world cell at flat index `i` (air above the soil line, dirt
below), as built by `createInitialGameState`. -/
def initCell (i : Nat) : SimWorld.WorldCell :=
  { type := if i < SM.SOIL_START_Y * SM.WORLD_WIDTH then SimWorld.CellType.air
            else SimWorld.CellType.dirt,
    pheromoneFood := 0, pheromoneHome := 0, isNest := false }

/-- The 192×108 initial world of `createInitialGameState`. -/
def c6InitialWorld : SimWorld.World :=
  { width := SM.WORLD_WIDTH, height := SM.WORLD_HEIGHT,
    cells := (List.range (SM.WORLD_WIDTH * SM.WORLD_HEIGHT)).map initCell }

/-- Initial ant `i` spawned at surface position `x`, as built by
`createInitialGameState`. -/
def c6InitAnt (i : Nat) (x : ℚ) : SM.SAnt :=
  { id := "ant-" ++ toString i, x := x, y := (SM.SOIL_START_Y : ℚ) - 1 / 2,
    vx := 0, vy := 0,
    role := if i % 3 = 0 then SM.AntRole.scout else SM.AntRole.worker,
    state := SM.SAntState.wandering, hunger := 0, carrying := SM.Carrying.none,
    mode := SM.AntMode.idleSurface, hasDirt := false, homeColumn := ⌊x⌋ }

/-- An initial game state of `createInitialGameState` (the five spawn
positions correspond to one possible sequence of creation-time random
draws). -/
def c6State : SM.GameState :=
  { meta := ⟨1⟩, world := c6InitialWorld, colony := ⟨0, 0, 5, true⟩,
    ants := [c6InitAnt 0 (193 / 2), c6InitAnt 1 (51 / 2), c6InitAnt 2 (101 / 2),
             c6InitAnt 3 (301 / 2), c6InitAnt 4 (121 / 2)],
    particles := [], foodItems := [], waterItems := [], settings := ⟨1, false⟩ }

/-- Random stream for the C6 counterexample: the first ant's per-frame dig
draw (stream index 1) succeeds. -/
def c6Rand : SM.Rand := fun n => if n = 1 then 0 else 1 / 2

theorem getCell_c6InitialWorld (x y : Int) (hx : 0 ≤ x)
    (hxW : x < ((SM.WORLD_WIDTH : Nat) : Int)) (hy : 0 ≤ y)
    (hyH : y < ((SM.WORLD_HEIGHT : Nat) : Int)) :
    SimWorld.getCell c6InitialWorld x y
      = some (initCell (y.toNat * SM.WORLD_WIDTH + x.toNat)) := by
  unfold SimWorld.getCell SimWorld.getCellIndex c6InitialWorld
  dsimp only
  rw [if_pos ⟨hx, hxW, hy, hyH⟩]
  refine get?_range_map initCell (SM.WORLD_WIDTH * SM.WORLD_HEIGHT) _ ?_
  unfold SM.WORLD_WIDTH at hxW
  unfold SM.WORLD_HEIGHT at hyH
  unfold SM.WORLD_WIDTH SM.WORLD_HEIGHT
  omega

theorem updateIdleSurface_digs (a : SM.SAnt) (w : SimWorld.World) (dt : ℚ)
    (r : SM.Rand) (k : Nat) (col : Int) (c : SimWorld.WorldCell)
    (hcol : ⌊SM.clamp (a.x + (if r k < (1 / 2 : ℚ) then (-1 : ℚ) else 1) * (20 * dt))
          (1 / 2) ((SM.WORLD_WIDTH : ℚ) - 1 / 2)⌋ = col)
    (hcell : SimWorld.getCell w col (SM.SOIL_START_Y : Int) = some c)
    (htype : c.type = SimWorld.CellType.dirt ∨ c.type = SimWorld.CellType.stone)
    (hr : r (k + 1) < (1 / 50 : ℚ)) :
    (SM.updateIdleSurface a w dt r k).1.mode = SM.AntMode.diggingDown := by
  unfold SM.updateIdleSurface
  dsimp only
  rw [hcol, hcell]
  dsimp only
  rw [if_pos (decide_eq_true htype)]
  rw [if_pos hr]

theorem antsLoop_head (a : SM.SAnt) (rest : List SM.SAnt) (w : SimWorld.World)
    (dt : ℚ) (r : SM.Rand) (k : Nat) :
    (SM.antsLoop (a :: rest) w dt r k).1
      = (SM.updateAntSM a w dt r k).1 ::
        (SM.antsLoop rest (SM.updateAntSM a w dt r k).2.1 dt r
          (SM.updateAntSM a w dt r k).2.2).1 := rfl

theorem updateAntSM_idle_mode (a : SM.SAnt) (w : SimWorld.World) (dt : ℚ)
    (r : SM.Rand) (k : Nat) (h : a.mode = SM.AntMode.idleSurface) :
    (SM.updateAntSM a w dt r k).1.mode
      = (SM.updateIdleSurface a w dt r k).1.mode := by
  unfold SM.updateAntSM
  rw [h]

set_option maxRecDepth 8000 in
/-- Counterexample to claim C6 as stated: calling `simulateStep` with
`dt = 0` on an initial game state (a reachable state) changes the first ant's
mode from `idleSurface` to `diggingDown`, because the 2% per-frame dig chance
in `updateIdleSurface` is not scaled by `dt`; the random stream `c6Rand`
makes that draw succeed. -/
theorem C6_zero_dt_counterexample :
    ((SM.simulateStep c6State 0 c6Rand 0).1.ants.get? 0).map SM.SAnt.mode
        = some SM.AntMode.diggingDown ∧
      (c6State.ants.get? 0).map SM.SAnt.mode = some SM.AntMode.idleSurface := by
  constructor
  · have hfloor :
        (⌊SM.clamp ((c6InitAnt 0 (193 / 2)).x
            + (if c6Rand 0 < (1 / 2 : ℚ) then (-1 : ℚ) else 1)
            * (20 * 0)) (1 / 2) ((SM.WORLD_WIDTH : ℚ) - 1 / 2)⌋ : Int) = 96 := by
      unfold SM.clamp SM.WORLD_WIDTH c6Rand c6InitAnt
      decide
    have hcell : SimWorld.getCell c6InitialWorld 96
        (SM.SOIL_START_Y : Int) = some (initCell 2400) := by
      rw [getCell_c6InitialWorld 96 (SM.SOIL_START_Y : Int) (by decide) (by decide)
        (by decide) (by decide)]
      rfl
    have hmode : (SM.updateAntSM (c6InitAnt 0 (193 / 2)) c6InitialWorld 0 c6Rand 0).1.mode
        = SM.AntMode.diggingDown := by
      rw [updateAntSM_idle_mode (c6InitAnt 0 (193 / 2)) c6InitialWorld 0 c6Rand 0 rfl]
      exact updateIdleSurface_digs (c6InitAnt 0 (193 / 2)) c6InitialWorld 0 c6Rand 0
        96 (initCell 2400) hfloor hcell (Or.inl (by decide)) (by decide)
    unfold SM.simulateStep
    rw [if_neg (by decide)]
    dsimp only
    rw [show c6State.ants
        = c6InitAnt 0 (193 / 2) :: [c6InitAnt 1 (51 / 2), c6InitAnt 2 (101 / 2),
            c6InitAnt 3 (301 / 2), c6InitAnt 4 (121 / 2)] from rfl]
    rw [show c6State.world = c6InitialWorld from rfl]
    rw [show (0 : ℚ) * c6State.settings.simSpeed = 0 from by
      rw [show c6State.settings.simSpeed = 1 from rfl]
      ring]
    rw [antsLoop_head]
    rw [List.get?_cons_zero]
    rw [Option.map_some']
    rw [hmode]
  · rfl

/-! ### The amended zero-dt statement -/

theorem clamp_eq_self {v lo hi : ℚ} (h1 : lo ≤ v) (h2 : v ≤ hi) :
    SM.clamp v lo hi = v := by
  unfold SM.clamp
  rw [min_eq_right h2, max_eq_right h1]

theorem map_id_of_eq {α : Type _} (f : α → α) :
    ∀ l : List α, (∀ x ∈ l, f x = x) → l.map f = l
  | [], _ => rfl
  | a :: t, h => by
    rw [List.map_cons, h a (by simp), map_id_of_eq f t (fun x hx => h x (by simp [hx]))]

theorem getD_mem {α : Type _} {l : List α} {i : Nat} (d : α) (h : i < l.length) :
    l.getD i d ∈ l := by
  induction l generalizing i with
  | nil => simp at h
  | cons a t ih =>
    cases i with
    | zero => simp
    | succ n =>
      have := ih (i := n) (by simpa using h)
      simp only [List.getD_cons_succ]
      exact List.mem_cons.2 (Or.inr this)

theorem range_map_getD {α : Type _} (d : α) (l : List α) :
    (List.range l.length).map (fun i => l.getD i d) = l := by
  apply List.ext_get?
  intro n
  rw [List.get?_map]
  by_cases h : n < l.length
  · rw [List.get?_range h, List.get?_eq_get h]
    have : l.getD n d = l.get ⟨n, h⟩ := by
      rw [List.getD_eq_get?, List.get?_eq_get h]
      rfl
    rw [Option.map_some']
    rw [this]
  · have h1 : (List.range l.length).get? n = none := by
      rw [List.get?_eq_none]
      simpa using Nat.le_of_not_lt h
    have h2 : l.get? n = none := by
      rw [List.get?_eq_none]
      exact Nat.le_of_not_lt h
    rw [h1, h2]
    rfl

theorem decayCell_zero {c : SimWorld.WorldCell} (h1 : 0 ≤ c.pheromoneFood)
    (h2 : 0 ≤ c.pheromoneHome) : SimWorld.decayCell 0 c = c := by
  unfold SimWorld.decayCell
  rw [mul_zero, sub_zero, sub_zero, max_eq_right h1, max_eq_right h2]

theorem diffusedPair_zero (W : Nat) (w1 : SimWorld.World) (x y : Nat) :
    SimWorld.diffusedPair W w1 0 x y
      = ((w1.cells.getD (y * W + x) default).pheromoneFood,
         (w1.cells.getD (y * W + x) default).pheromoneHome) := by
  unfold SimWorld.diffusedPair
  dsimp only
  rw [mul_zero, mul_zero, add_zero, add_zero]

theorem updatePheromones_zero (W H : Nat) (w : SimWorld.World)
    (h : SimWorld.pheromonesInRange w) :
    SimWorld.updatePheromones W H w 0 = w := by
  unfold SimWorld.updatePheromones
  dsimp only
  have hdec : w.cells.map (SimWorld.decayCell 0) = w.cells :=
    map_id_of_eq _ _ (fun c hc => decayCell_zero (h c hc).1 (h c hc).2.2.1)
  rw [hdec]
  have hstep : ∀ i ∈ List.range w.cells.length,
      (let c := w.cells.getD i default
       let p : ℚ × ℚ :=
         if i < W * H then
           SimWorld.diffusedPair W { w with cells := w.cells } 0 (i % W) (i / W)
         else (c.pheromoneFood, c.pheromoneHome)
       { c with pheromoneFood := max 0 (min 1 p.1),
                pheromoneHome := max 0 (min 1 p.2) })
        = w.cells.getD i default := by
    intro i hi
    have hlen : i < w.cells.length := List.mem_range.1 hi
    have hmem := getD_mem (l := w.cells) default hlen
    obtain ⟨hf0, hf1, hh0, hh1⟩ := h _ hmem
    dsimp only
    have hp : (if i < W * H then
        SimWorld.diffusedPair W { w with cells := w.cells } 0 (i % W) (i / W)
       else ((w.cells.getD i default).pheromoneFood,
             (w.cells.getD i default).pheromoneHome))
        = ((w.cells.getD i default).pheromoneFood,
           (w.cells.getD i default).pheromoneHome) := by
      split
      · rw [diffusedPair_zero]
        dsimp only
        have hidx : i / W * W + i % W = i := by
          rw [Nat.div_add_mod']
        rw [hidx]
      · rfl
    rw [hp]
    dsimp only
    rw [min_eq_right hf1, max_eq_right hf0, min_eq_right hh1, max_eq_right hh0]
  rw [List.map_congr_left hstep, range_map_getD]

theorem updateIdleSurface_zero (a : SM.SAnt) (w : SimWorld.World) (r : SM.Rand)
    (k : Nat) (hy : a.y = (SM.SOIL_START_Y : ℚ) - 1 / 2) (hx1 : 1 / 2 ≤ a.x)
    (hx2 : a.x ≤ (SM.WORLD_WIDTH : ℚ) - 1 / 2) (hr : ∀ n, (1 / 50 : ℚ) ≤ r n) :
    (SM.updateIdleSurface a w 0 r k).1 = a := by
  unfold SM.updateIdleSurface
  dsimp only
  have hx0 : a.x + (if r k < (1 / 2 : ℚ) then (-1 : ℚ) else 1) * (20 * 0) = a.x := by
    split <;> ring
  rw [hx0, clamp_eq_self hx1 hx2, ← hy]
  split
  · split
    · rename_i hlt
      exact absurd hlt (not_lt.2 (hr _))
    · rfl
  · rfl

theorem updateAntSM_zero (a : SM.SAnt) (w : SimWorld.World) (r : SM.Rand) (k : Nat)
    (hm : a.mode = SM.AntMode.idleSurface)
    (hy : a.y = (SM.SOIL_START_Y : ℚ) - 1 / 2) (hx1 : 1 / 2 ≤ a.x)
    (hx2 : a.x ≤ (SM.WORLD_WIDTH : ℚ) - 1 / 2) (hr : ∀ n, (1 / 50 : ℚ) ≤ r n) :
    (SM.updateAntSM a w 0 r k).1 = a ∧ (SM.updateAntSM a w 0 r k).2.1 = w := by
  unfold SM.updateAntSM
  rw [hm]
  dsimp only
  rw [updateIdleSurface_zero a w r k hy hx1 hx2 hr]
  have hy0 : (0 : ℚ) ≤ a.y := by
    rw [hy]
    unfold SM.SOIL_START_Y
    norm_num
  have hyH : a.y ≤ (SM.WORLD_HEIGHT : ℚ) - 1 / 2 := by
    rw [hy]
    unfold SM.SOIL_START_Y SM.WORLD_HEIGHT
    norm_num
  rw [clamp_eq_self hx1 hx2, clamp_eq_self hy0 hyH]
  exact ⟨rfl, rfl⟩

theorem antsLoop_zero (r : SM.Rand) (hr : ∀ n, (1 / 50 : ℚ) ≤ r n) :
    ∀ (ants : List SM.SAnt) (w : SimWorld.World) (k : Nat),
      (∀ a ∈ ants, a.mode = SM.AntMode.idleSurface ∧
        a.y = (SM.SOIL_START_Y : ℚ) - 1 / 2 ∧ 1 / 2 ≤ a.x ∧
        a.x ≤ (SM.WORLD_WIDTH : ℚ) - 1 / 2) →
      (SM.antsLoop ants w 0 r k).1 = ants ∧ (SM.antsLoop ants w 0 r k).2.1 = w
  | [], w, k, _ => ⟨rfl, rfl⟩
  | a :: rest, w, k, h => by
    obtain ⟨hm, hy, hx1, hx2⟩ := h a (by simp)
    have h1 := updateAntSM_zero a w r k hm hy hx1 hx2 hr
    have h2 := antsLoop_zero r hr rest (SM.updateAntSM a w 0 r k).2.1
      (SM.updateAntSM a w 0 r k).2.2 (fun b hb => h b (by simp [hb]))
    unfold SM.antsLoop
    dsimp only
    constructor
    · rw [h1.1, h2.1]
    · rw [h2.2, h1.2]

/-- Claim C6 amended: `simulateStep(gameState, 0)` performs no `dt`-scaled
update (pheromone decay and diffusion amounts vanish and all speed terms are
zero), but the per-frame (not `dt`-scaled) random branches still run and can
change ant mode, position, and the grid — see the counterexample. When no
per-frame branch fires — here: every ant idle on the surface inside the
horizontal clamp range and every per-frame dig draw failing — the call leaves
the whole game state unchanged, provided pheromone values start in `[0, 1]`. -/
theorem C6_zero_dt_amended (gs : SM.GameState) (r : SM.Rand) (k : Nat)
    (hants : ∀ a ∈ gs.ants, a.mode = SM.AntMode.idleSurface ∧
      a.y = (SM.SOIL_START_Y : ℚ) - 1 / 2 ∧ 1 / 2 ≤ a.x ∧
      a.x ≤ (SM.WORLD_WIDTH : ℚ) - 1 / 2)
    (hr : ∀ n, (1 / 50 : ℚ) ≤ r n)
    (hph : SimWorld.pheromonesInRange gs.world) :
    (SM.simulateStep gs 0 r k).1 = gs := by
  unfold SM.simulateStep
  split
  · rfl
  · dsimp only
    rw [zero_mul]
    have h1 := antsLoop_zero r hr gs.ants gs.world k hants
    rw [h1.1, h1.2, updatePheromones_zero _ _ _ hph]

/-- Tiny game state (no ants, small in-range world) for the C6 witness. -/
def c6TinyState : SM.GameState :=
  { meta := ⟨1⟩, world := c2World, colony := ⟨0, 0, 0, true⟩,
    ants := [], particles := [], foodItems := [], waterItems := [],
    settings := ⟨1, false⟩ }

/-- Witness for the amended C6 at a concrete state and random stream. -/
theorem C6_zero_dt_amended_witness :
    (SM.simulateStep c6TinyState 0 Sandbox.halfRand 0).1 = c6TinyState :=
  C6_zero_dt_amended c6TinyState Sandbox.halfRand 0 (by decide)
    (fun _ => (by decide : (1 / 50 : ℚ) ≤ 1 / 2)) (by decide)





/-! ## Active-set sandbox profile (the unnamed `activeSand` variant)

The source keeps a `Set<string>` of `"x,y"` keys of sand particles that may
still move; `simulateStep` iterates a frame-start snapshot of that set,
`updateCell` moves particles and transfers keys, and a particle that failed
to move leaves the set exactly when none of the three cells below it is
active. The string keys are modelled as integer pairs (the `"x,y"` encoding
is injective on integer coordinates), and the set as an insertion-ordered
duplicate-free list, matching JS `Set` semantics. -/

namespace ASand

def WORLD_WIDTH : Nat := 160

def WORLD_HEIGHT : Nat := 120

def ANT_WALK_SPEED : ℚ := 1 / 20

structure Ant : Type where
  x : ℚ
  y : ℚ
  direction : Int
  carrySand : Bool
  state : Sandbox.AntState
  digCooldown : Nat
deriving DecidableEq, Repr

/-- Source `isAntAt`: some ant's floored position is within distance zero. -/
def isAntAt (ants : List Ant) (x y : Int) : Bool :=
  ants.any (fun a => decide ((⌊a.x⌋ - x).natAbs ≤ 0) && decide ((⌊a.y⌋ - y).natAbs ≤ 0))

/-- Source `isEmpty`; its `ants` parameter is optional, call sites that omit
it pass `[]` here (the ant test is then vacuous, as with `undefined`). -/
def isEmpty (g : Sandbox.Grid) (x y : Int) (ants : List Ant) : Bool :=
  if x < 0 ∨ x ≥ (WORLD_WIDTH : Int) ∨ y < 0 ∨ y ≥ (WORLD_HEIGHT : Int) then false
  else if isAntAt ants x y then false
  else decide (Sandbox.cellAt g x y = Sandbox.Cell.Empty)

/-- Source `isSolid`: out of bounds counts as solid. -/
def isSolid (g : Sandbox.Grid) (x y : Int) : Bool :=
  if x < 0 ∨ x ≥ (WORLD_WIDTH : Int) ∨ y < 0 ∨ y ≥ (WORLD_HEIGHT : Int) then true
  else decide (Sandbox.cellAt g x y = Sandbox.Cell.Sand ∨
    Sandbox.cellAt g x y = Sandbox.Cell.Wall)

/-- Source `isDiggable`: in-bounds sand. -/
def isDiggable (g : Sandbox.Grid) (x y : Int) : Bool :=
  if x < 0 ∨ x ≥ (WORLD_WIDTH : Int) ∨ y < 0 ∨ y ≥ (WORLD_HEIGHT : Int) then false
  else decide (Sandbox.cellAt g x y = Sandbox.Cell.Sand)

/-- A `"x,y"` key of the `activeSand` set, as a coordinate pair. -/
abbrev Key := Int × Int

structure AState : Type where
  grid : Sandbox.Grid
  ants : List Ant
  tick : Nat
  activeSand : List Key
  marker : Option (ℚ × ℚ)
deriving DecidableEq, Repr

/-- `Set.add`: appends when absent (JS sets preserve insertion order). -/
def addKey (l : List Key) (p : Key) : List Key :=
  if p ∈ l then l else l ++ [p]

/-- `Set.delete`: removes the key. -/
def delKey (l : List Key) (p : Key) : List Key :=
  l.filter (fun q => decide (q ≠ p))

/-- One diagonal attempt of `updateCell` (the source tests the two target
columns `x - 1` and `x + 1` literally): both the diagonal-down cell and the
lateral cell on the same row must be empty and ant-free. -/
def trySlide (g : Sandbox.Grid) (ants : List Ant) (x y tx : Int) : Bool :=
  isEmpty g tx (y + 1) ants && isEmpty g tx y ants

/-- Which diagonal the `goLeft`-ordered slide attempts select, if any. -/
def slideTarget (g : Sandbox.Grid) (ants : List Ant) (x y : Int) (goLeft : Bool) :
    Option Int :=
  if goLeft then
    if trySlide g ants x y (x - 1) then some (x - 1)
    else if trySlide g ants x y (x + 1) then some (x + 1)
    else none
  else
    if trySlide g ants x y (x + 1) then some (x + 1)
    else if trySlide g ants x y (x - 1) then some (x - 1)
    else none

/-- Source `updateCell` of the active-set profile: fall straight down (moving
the key down with the particle), else draw the 50/50 slide preference and try
the two diagonals, else — no move — leave the active set exactly when none of
the three cells below is active. -/
def updateCell (s : AState) (x y : Int) (r : Sandbox.Rand) (k : Nat) :
    AState × Nat :=
  if Sandbox.cellAt s.grid x y ≠ Sandbox.Cell.Sand then (s, k)
  else if isEmpty s.grid x (y + 1) s.ants then
    ({ s with grid := Sandbox.moveSand s.grid x y x (y + 1),
              activeSand := addKey (delKey s.activeSand (x, y)) (x, y + 1) }, k)
  else
    match slideTarget s.grid s.ants x y (decide (r k < (1 / 2 : ℚ))) with
    | some tx =>
      ({ s with grid := Sandbox.moveSand s.grid x y tx (y + 1),
                activeSand := addKey (delKey s.activeSand (x, y)) (tx, y + 1) }, k + 1)
    | none =>
      if (x, y + 1) ∈ s.activeSand ∨ (x - 1, y + 1) ∈ s.activeSand ∨
          (x + 1, y + 1) ∈ s.activeSand then (s, k + 1)
      else ({ s with activeSand := delKey s.activeSand (x, y) }, k + 1)

/-- One iteration of the `for (const key of activeCells)` loop of
`simulateStep`: a key whose cell is no longer sand is dropped, otherwise the
particle is updated. -/
def processKey (s : AState) (p : Key) (r : Sandbox.Rand) (k : Nat) : AState × Nat :=
  if Sandbox.cellAt s.grid p.1 p.2 ≠ Sandbox.Cell.Sand then
    ({ s with activeSand := delKey s.activeSand p }, k)
  else updateCell s p.1 p.2 r k

/-- The sand phase: iterate over the frame-start snapshot of `activeSand`. -/
def stepKeys : List Key → AState → Sandbox.Rand → Nat → AState × Nat
  | [], s, _, k => (s, k)
  | p :: rest, s, r, k =>
    stepKeys rest (processKey s p r k).1 r (processKey s p r k).2

/-- Preferred direction toward the marker. -/
def markerDir (dxq : ℚ) : Int := if dxq > 0 then 1 else -1

/-- Marker steering block at the top of `walkBehavior`; the random draw is
reached only when the preferred direction is neither walkable nor climbable
(`||` short-circuits). -/
def walkMarker (g : Sandbox.Grid) (a : Ant) (marker : Option (ℚ × ℚ))
    (x y : Int) (r : Sandbox.Rand) (k : Nat) : Ant × Nat :=
  match marker with
  | none => (a, k)
  | some m =>
    if |m.1 - (x : ℚ)| > 2 then
      if a.direction ≠ markerDir (m.1 - (x : ℚ)) then
        if isEmpty g (x + markerDir (m.1 - (x : ℚ))) y [] ||
            isSolid g (x + markerDir (m.1 - (x : ℚ))) y then
          ({ a with direction := markerDir (m.1 - (x : ℚ)) }, k)
        else if r k < (3 / 10 : ℚ) then
          ({ a with direction := markerDir (m.1 - (x : ℚ)) }, k + 1)
        else (a, k + 1)
      else (a, k)
    else (a, k)

/-- The climb scan of `walkBehavior`: heights `1..maxClimbHeight`, stopping
at the first ceiling in the ant's own column; returns the height found. -/
def climbLoop (g : Sandbox.Grid) (x y nextX : Int) : List Nat → Option Nat
  | [] => none
  | h :: rest =>
    if isEmpty g x (y - (h : Int)) [] && isEmpty g nextX (y - (h : Int)) [] &&
        isSolid g nextX y then some h
    else if isSolid g x (y - (h : Int)) then none
    else climbLoop g x y nextX rest

def maxClimbHeight : Nat := 10

/-- Movement stage of the active-set `walkBehavior`: walk forward, walk down
a slope, climb (with a half-step nudge at the top), walk on the ceiling, walk
up the wall, else dig (after a random draw) or turn around. -/
def walkMove (g : Sandbox.Grid) (a : Ant) (x y : Int) (r : Sandbox.Rand) (k : Nat) :
    Ant × Nat :=
  if isEmpty g (x + a.direction) y [] && isSolid g (x + a.direction) (y + 1) then
    ({ a with x := a.x + a.direction * ANT_WALK_SPEED }, k)
  else if isEmpty g (x + a.direction) y [] && isEmpty g (x + a.direction) (y + 1) [] &&
      isSolid g (x + a.direction) (y + 2) then
    ({ a with x := a.x + a.direction * ANT_WALK_SPEED, y := a.y + 1 }, k)
  else
    match climbLoop g x y (x + a.direction) (List.range' 1 maxClimbHeight) with
    | some h =>
      if h = 1 ∨ isEmpty g (x + a.direction) (y - (h : Int)) [] = true then
        ({ a with y := a.y - 1,
                  x := a.x + a.direction * ANT_WALK_SPEED * (1 / 2 : ℚ) }, k)
      else ({ a with y := a.y - 1 }, k)
    | none =>
      if isEmpty g (x + a.direction) y [] && isSolid g (x + a.direction) (y - 1) &&
          !isSolid g x (y - 1) then
        ({ a with x := a.x + a.direction * ANT_WALK_SPEED, y := a.y - 1 }, k)
      else if isEmpty g x (y - 1) [] && isSolid g (x + a.direction) y then
        ({ a with y := a.y - 1 }, k)
      else if !a.carrySand && isDiggable g (x + a.direction) y then
        if r k < (3 / 10 : ℚ) then
          ({ a with state := Sandbox.AntState.digging }, k + 1)
        else ({ a with direction := if a.direction = 1 then -1 else 1 }, k + 1)
      else ({ a with direction := if a.direction = 1 then -1 else 1 }, k)

/-- Trailing random dig check of `walkBehavior` (draw only when not carrying;
the dig test looks at the cell under the ant's feet). -/
def walkDigCheck (g : Sandbox.Grid) (a : Ant) (x y : Int) (r : Sandbox.Rand)
    (k : Nat) : Ant × Nat :=
  if !a.carrySand then
    if r k < (1 / 50 : ℚ) && isDiggable g x (y + 1) then
      ({ a with state := Sandbox.AntState.digging }, k + 1)
    else (a, k + 1)
  else (a, k)

/-- Trailing random drop check of `walkBehavior` (draw only when carrying). -/
def walkDropCheck (a : Ant) (r : Sandbox.Rand) (k : Nat) : Ant × Nat :=
  if a.carrySand then
    if r k < (1 / 100 : ℚ) then ({ a with state := Sandbox.AntState.dropping }, k + 1)
    else (a, k + 1)
  else (a, k)

/-- Source `walkBehavior` of the active-set profile: marker steering, the
movement priorities, then the two trailing random state checks, all on the
floored coordinates taken at entry. -/
def walkBehavior (g : Sandbox.Grid) (a : Ant) (marker : Option (ℚ × ℚ))
    (r : Sandbox.Rand) (k : Nat) : Ant × Nat :=
  let s0 := walkMarker g a marker ⌊a.x⌋ ⌊a.y⌋ r k
  let s1 := walkMove g s0.1 ⌊a.x⌋ ⌊a.y⌋ r s0.2
  let s2 := walkDigCheck g s1.1 ⌊a.x⌋ ⌊a.y⌋ r s1.2
  walkDropCheck s2.1 r s2.2

/-- Loop of `digBehavior`'s target scan: dug cells become empty and leave the
active set. -/
def digLoop (s : AState) (a : Ant) (x y : Int) : List (Int × Int) → AState × Ant
  | [] => (s, { a with state := Sandbox.AntState.walking })
  | (dx, dy) :: rest =>
    if isDiggable s.grid (x + dx) (y + dy) then
      ({ s with grid := Sandbox.setCell s.grid (x + dx) (y + dy) Sandbox.Cell.Empty,
                activeSand := delKey s.activeSand (x + dx, y + dy) },
       { a with carrySand := true, digCooldown := 10,
                state := Sandbox.AntState.walking })
    else digLoop s a x y rest

/-- Source `digBehavior`: dig the first diggable of front, front-below, below. -/
def digBehavior (s : AState) (a : Ant) : AState × Ant :=
  if a.digCooldown > 0 then (s, a)
  else digLoop s a ⌊a.x⌋ ⌊a.y⌋ [(a.direction, 0), (a.direction, 1), (0, 1)]

/-- Loop of `dropBehavior`'s target scan: dropped sand becomes active. -/
def dropLoop (s : AState) (a : Ant) (x y : Int) : List (Int × Int) → AState × Ant
  | [] => (s, { a with state := Sandbox.AntState.walking })
  | (dx, dy) :: rest =>
    if isEmpty s.grid (x + dx) (y + dy) [] then
      ({ s with grid := Sandbox.setCell s.grid (x + dx) (y + dy) Sandbox.Cell.Sand,
                activeSand := addKey s.activeSand (x + dx, y + dy) },
       { a with carrySand := false, state := Sandbox.AntState.walking })
    else dropLoop s a x y rest

/-- Source `dropBehavior`: drop into the first empty of front, above, behind. -/
def dropBehavior (s : AState) (a : Ant) : AState × Ant :=
  if !a.carrySand then (s, { a with state := Sandbox.AntState.walking })
  else dropLoop s a ⌊a.x⌋ ⌊a.y⌋ [(a.direction, 0), (0, -1), (-a.direction, 0)]

/-- Attachment check, gravity fall, and state dispatch of `updateAnt` (run on
the ant after its dig cooldown has been decremented). -/
def updateAntBody (s : AState) (a0 : Ant) (r : Sandbox.Rand) (k : Nat) :
    AState × Ant × Nat :=
  if !(isSolid s.grid ⌊a0.x⌋ (⌊a0.y⌋ + 1) || isSolid s.grid ⌊a0.x⌋ (⌊a0.y⌋ - 1) ||
       isSolid s.grid (⌊a0.x⌋ - 1) ⌊a0.y⌋ || isSolid s.grid (⌊a0.x⌋ + 1) ⌊a0.y⌋) then
    (s, { a0 with y := a0.y + (1 / 2 : ℚ) }, k)
  else
    match a0.state with
    | Sandbox.AntState.walking =>
      (s, (walkBehavior s.grid a0 s.marker r k).1, (walkBehavior s.grid a0 s.marker r k).2)
    | Sandbox.AntState.digging => ((digBehavior s a0).1, (digBehavior s a0).2, k)
    | Sandbox.AntState.dropping => ((dropBehavior s a0).1, (dropBehavior s a0).2, k)

/-- Source `updateAnt`: cooldown decrement, then attachment, gravity and the
state dispatch. -/
def updateAnt (s : AState) (a : Ant) (r : Sandbox.Rand) (k : Nat) :
    AState × Ant × Nat :=
  updateAntBody s
    (if a.digCooldown > 0 then { a with digCooldown := a.digCooldown - 1 } else a) r k

/-- The ant phase (each ant in list order, threading state and cursor). -/
def antsPass : List Ant → AState → Sandbox.Rand → Nat → AState × List Ant × Nat
  | [], s, _, k => (s, [], k)
  | a :: rest, s, r, k =>
    let u := updateAnt s a r k
    let t := antsPass rest u.1 r u.2.2
    (t.1, u.2.1 :: t.2.1, t.2.2)

/-- Source `simulateStep` of the active-set profile: bump the tick, iterate
the frame-start snapshot of `activeSand`, then update the ants. -/
def simulateStep (s : AState) (r : Sandbox.Rand) (k : Nat) : AState × Nat :=
  let s1 : AState := { s with tick := s.tick + 1 }
  let sp := stepKeys s1.activeSand s1 r k
  let ap := antsPass sp.1.ants sp.1 r sp.2
  ({ ap.1 with ants := ap.2.1 }, ap.2.2)

/-- `n` repeated calls of `simulateStep`, threading the random cursor. -/
def runSteps (r : Sandbox.Rand) : Nat → AState → Nat → AState × Nat
  | 0, s, k => (s, k)
  | n + 1, s, k => runSteps r n (simulateStep s r k).1 (simulateStep s r k).2

end ASand

namespace ASand

/-! ### Facts about the key set operations -/

theorem mem_delKey {l : List Key} {p q : Key} :
    q ∈ delKey l p ↔ q ∈ l ∧ q ≠ p := by
  unfold delKey
  rw [List.mem_filter]
  simp

theorem nodup_delKey {l : List Key} (h : l.Nodup) (p : Key) : (delKey l p).Nodup :=
  h.filter _

theorem length_delKey_le (l : List Key) (p : Key) : (delKey l p).length ≤ l.length :=
  List.length_filter_le _ _

theorem length_delKey_lt {l : List Key} {p : Key} (h : p ∈ l) :
    (delKey l p).length < l.length := by
  induction l with
  | nil => cases h
  | cons a t ih =>
    unfold delKey at ih ⊢
    rcases List.mem_cons.1 h with rfl | hmem
    · rw [List.filter_cons_of_neg (by simp)]
      have := List.length_filter_le (fun q => decide (q ≠ p)) t
      simp only [List.length_cons]
      omega
    · by_cases hap : a = p
      · rw [hap, List.filter_cons_of_neg (by simp)]
        have := List.length_filter_le (fun q => decide (q ≠ p)) t
        simp only [List.length_cons]
        omega
      · rw [List.filter_cons_of_pos (by simpa using hap)]
        have := ih hmem
        simp only [List.length_cons]
        omega

theorem mem_addKey {l : List Key} {p q : Key} :
    q ∈ addKey l p ↔ q ∈ l ∨ q = p := by
  unfold addKey
  split
  · rename_i hmem
    constructor
    · exact Or.inl
    · rintro (h | rfl)
      · exact h
      · exact hmem
  · simp

theorem nodup_addKey {l : List Key} (h : l.Nodup) (p : Key) : (addKey l p).Nodup := by
  unfold addKey
  split
  · exact h
  · rename_i hmem
    simpa [List.nodup_append] using ⟨h, hmem⟩

theorem length_addKey_le (l : List Key) (p : Key) :
    (addKey l p).length ≤ l.length + 1 := by
  unfold addKey
  split
  · omega
  · simp

/-! ### The row-weighted potential -/

/-- Row-weighted sand count: a particle in row `j` of a grid with `L` rows
contributes `L - j`, so every move (always one row down) decreases the
potential by exactly one. -/
def pot : Sandbox.Grid → Nat
  | [] => 0
  | row :: rest => (rest.length + 1) * Sandbox.sandRow row + pot rest

theorem pot_set_list (g : Sandbox.Grid) :
    ∀ (j : Nat) (row' : List Sandbox.Cell), j < g.length →
      pot (g.set j row') + (g.length - j) * Sandbox.sandRow (g.getD j [])
        = pot g + (g.length - j) * Sandbox.sandRow row' := by
  induction g with
  | nil => intro j row' h; simp at h
  | cons b t ih =>
    intro j row' h
    cases j with
    | zero =>
      simp only [List.set_cons_zero, pot, List.getD_cons_zero, List.length_cons,
        Nat.sub_zero]
      omega
    | succ n =>
      have hn : n < t.length := by simpa using h
      have h2 := ih n row' hn
      simp only [List.set_cons_succ, pot, List.getD_cons_succ, List.length_cons,
        List.length_set]
      have hw : t.length + 1 - (n + 1) = t.length - n := by omega
      rw [hw]
      omega

theorem length_setCell (g : Sandbox.Grid) (x y : Int) (c : Sandbox.Cell) :
    (Sandbox.setCell g x y c).length = g.length := by
  unfold Sandbox.setCell
  split
  · simp
  · rfl

theorem pot_setCell {W H : Nat} {g : Sandbox.Grid} (wf : Sandbox.GridWF W H g)
    {x y : Int} (c : Sandbox.Cell)
    (hx0 : 0 ≤ x) (hxW : x < (W : Int)) (hy0 : 0 ≤ y) (hyH : y < (H : Int)) :
    pot (Sandbox.setCell g x y c)
        + (g.length - y.toNat) * Sandbox.sandBit (Sandbox.cellAt g x y)
      = pot g + (g.length - y.toNat) * Sandbox.sandBit c := by
  have hylen : y.toNat < g.length := by rw [wf.1]; omega
  have hxlen : x.toNat < (g.getD y.toNat []).length := by
    rw [wf.2 y.toNat (by omega)]; omega
  unfold Sandbox.setCell Sandbox.cellAt
  rw [if_pos ⟨hx0, hy0⟩, if_pos ⟨hx0, hy0⟩]
  have h1 := pot_set_list g y.toNat ((g.getD y.toNat []).set x.toNat c) hylen
  have h2 := Sandbox.sandRow_set (g.getD y.toNat []) x.toNat c hxlen
  have h3 : (g.length - y.toNat)
        * (Sandbox.sandRow ((g.getD y.toNat []).set x.toNat c)
            + Sandbox.sandBit ((g.getD y.toNat []).getD x.toNat Sandbox.Cell.Empty))
      = (g.length - y.toNat)
        * (Sandbox.sandRow (g.getD y.toNat []) + Sandbox.sandBit c) := by
    rw [h2]
  rw [Nat.mul_add, Nat.mul_add] at h3
  omega

theorem pot_moveSand {W H : Nat} {g : Sandbox.Grid} (wf : Sandbox.GridWF W H g)
    {x y tx : Int}
    (hsand : Sandbox.cellAt g x y = Sandbox.Cell.Sand)
    (htx0 : 0 ≤ tx) (htxW : tx < (W : Int))
    (hty0 : 0 ≤ y + 1) (htyH : y + 1 < (H : Int))
    (hcell : Sandbox.cellAt g tx (y + 1) = Sandbox.Cell.Empty) :
    pot (Sandbox.moveSand g x y tx (y + 1)) + 1 = pot g := by
  obtain ⟨hx0, hxW, hy0, hyH⟩ :=
    Sandbox.cellAt_ne_empty_bounds wf (by rw [hsand]; intro hc; cases hc)
  have wf1 := Sandbox.gridWF_setCell wf x y Sandbox.Cell.Empty
  have e1 := pot_setCell wf Sandbox.Cell.Empty hx0 hxW hy0 hyH
  rw [hsand] at e1
  have hkeep : Sandbox.cellAt (Sandbox.setCell g x y Sandbox.Cell.Empty) tx (y + 1)
      = Sandbox.cellAt g tx (y + 1) :=
    Sandbox.cellAt_setCell_ne g Sandbox.Cell.Empty (Or.inl (by omega))
  have e2 := pot_setCell wf1 Sandbox.Cell.Sand htx0 htxW hty0 htyH
  rw [hkeep, hcell] at e2
  rw [length_setCell] at e2
  have hyy : (y + 1).toNat = y.toNat + 1 := by omega
  rw [hyy] at e2
  have hylen : y.toNat < g.length := by rw [wf.1]; omega
  have hy1len : y.toNat + 1 < g.length := by rw [wf.1]; omega
  unfold Sandbox.moveSand
  simp only [Sandbox.sandBit] at e1 e2
  simp only [reduceCtorEq, if_true, if_false] at e1 e2
  have hw : g.length - y.toNat = (g.length - (y.toNat + 1)) + 1 := by omega
  rw [hw] at e1
  simp only [Nat.mul_one, Nat.mul_zero] at e1 e2
  omega

/-! ### The settling invariant and the decreasing gauge -/

/-- The `activeSand` list is duplicate-free (a JS set) with in-bounds keys. -/
def KeysWF (l : List Key) : Prop :=
  l.Nodup ∧ ∀ p ∈ l, 0 ≤ p.1 ∧ p.1 < (WORLD_WIDTH : Int) ∧
    0 ≤ p.2 ∧ p.2 < (WORLD_HEIGHT : Int)

/-- Reachable-state invariant for the no-ants setting. -/
def Inv (s : AState) : Prop :=
  Sandbox.GridWF WORLD_WIDTH WORLD_HEIGHT s.grid ∧ KeysWF s.activeSand ∧ s.ants = []

/-- The decreasing measure: the potential weighted past any possible size of
the active set, plus the size of the active set. -/
def gauge (s : AState) : Nat :=
  pot s.grid * (WORLD_WIDTH * WORLD_HEIGHT + 1) + s.activeSand.length

theorem length_le_area {l : List Key} (h : KeysWF l) :
    l.length ≤ WORLD_WIDTH * WORLD_HEIGHT := by
  have hsub : l.toFinset ⊆
      Finset.Icc (0 : Int) ((WORLD_WIDTH : Int) - 1) ×ˢ
        Finset.Icc (0 : Int) ((WORLD_HEIGHT : Int) - 1) := by
    intro p hp
    have hm := h.2 p (List.mem_toFinset.1 hp)
    rw [Finset.mem_product, Finset.mem_Icc, Finset.mem_Icc]
    omega
  have hcard := Finset.card_le_card hsub
  rw [List.toFinset_card_of_nodup h.1, Finset.card_product, Int.card_Icc,
    Int.card_Icc] at hcard
  calc l.length ≤ _ := hcard
    _ = WORLD_WIDTH * WORLD_HEIGHT := by decide

theorem aIsEmpty_bounds {g : Sandbox.Grid} {x y : Int} {ants : List Ant}
    (h : isEmpty g x y ants = true) :
    0 ≤ x ∧ x < (WORLD_WIDTH : Int) ∧ 0 ≤ y ∧ y < (WORLD_HEIGHT : Int) ∧
      Sandbox.cellAt g x y = Sandbox.Cell.Empty := by
  unfold isEmpty at h
  split at h
  · cases h
  · rename_i hc
    push_neg at hc
    split at h
    · cases h
    · exact ⟨hc.1, hc.2.1, hc.2.2.1, hc.2.2.2, of_decide_eq_true h⟩

theorem slideTarget_some {g : Sandbox.Grid} {ants : List Ant} {x y tx : Int}
    {gl : Bool} (h : slideTarget g ants x y gl = some tx) :
    isEmpty g tx (y + 1) ants = true := by
  unfold slideTarget trySlide at h
  split at h
  · split at h
    · rename_i hts
      cases h
      simp only [Bool.and_eq_true] at hts
      exact hts.1
    · split at h
      · rename_i hts
        cases h
        simp only [Bool.and_eq_true] at hts
        exact hts.1
      · cases h
  · split at h
    · rename_i hts
      cases h
      simp only [Bool.and_eq_true] at hts
      exact hts.1
    · split at h
      · rename_i hts
        cases h
        simp only [Bool.and_eq_true] at hts
        exact hts.1
      · cases h

/-- Deleting a key from the active set: the gauge does not grow, the
invariant survives, other keys survive, and when the key was present the
gauge strictly shrinks. -/
theorem del_branch (s : AState) (p : Key) (hInv : Inv s) :
    gauge { s with activeSand := delKey s.activeSand p } ≤ gauge s ∧
    Inv { s with activeSand := delKey s.activeSand p } ∧
    (∀ q ∈ s.activeSand, q ≠ p → q ∈ delKey s.activeSand p) ∧
    (∀ q ∈ delKey s.activeSand p, q ∈ s.activeSand) ∧
    (p ∈ s.activeSand →
      gauge { s with activeSand := delKey s.activeSand p } < gauge s) := by
  refine ⟨?_, ⟨hInv.1, ⟨nodup_delKey hInv.2.1.1 p,
      fun q hq => hInv.2.1.2 q (mem_delKey.1 hq).1⟩, hInv.2.2⟩,
    fun q hq hne => mem_delKey.2 ⟨hq, hne⟩,
    fun q hq => (mem_delKey.1 hq).1, ?_⟩
  · unfold gauge
    dsimp only
    have := length_delKey_le s.activeSand p
    omega
  · intro hp
    unfold gauge
    dsimp only
    have := length_delKey_lt hp
    omega

/-- A successful move (fall or slide): the gauge strictly shrinks and the
invariant survives. -/
theorem move_branch (s : AState) (x y tx : Int) (hInv : Inv s)
    (hsand : Sandbox.cellAt s.grid x y = Sandbox.Cell.Sand)
    (hemp : isEmpty s.grid tx (y + 1) s.ants = true) :
    gauge { s with grid := Sandbox.moveSand s.grid x y tx (y + 1),
                   activeSand := addKey (delKey s.activeSand (x, y)) (tx, y + 1) }
        < gauge s ∧
    Inv { s with grid := Sandbox.moveSand s.grid x y tx (y + 1),
                 activeSand := addKey (delKey s.activeSand (x, y)) (tx, y + 1) } := by
  obtain ⟨htx0, htxW, hty0, htyH, hcell⟩ := aIsEmpty_bounds hemp
  have hpot := pot_moveSand hInv.1 hsand htx0 htxW hty0 htyH hcell
  have hInv2 : Inv { s with grid := Sandbox.moveSand s.grid x y tx (y + 1),
                            activeSand := addKey (delKey s.activeSand (x, y))
                              (tx, y + 1) } := by
    refine ⟨Sandbox.gridWF_moveSand hInv.1 _ _ _ _,
      ⟨nodup_addKey (nodup_delKey hInv.2.1.1 _) _, ?_⟩, hInv.2.2⟩
    intro q hq
    rcases mem_addKey.1 hq with h | rfl
    · exact hInv.2.1.2 q (mem_delKey.1 h).1
    · exact ⟨htx0, htxW, hty0, htyH⟩
  refine ⟨?_, hInv2⟩
  have hlen := length_le_area hInv2.2.1
  unfold gauge at hlen ⊢
  dsimp only at hlen ⊢
  rw [← hpot, Nat.succ_mul]
  omega

/-- Case analysis of one snapshot-loop iteration: either a particle moved
(the gauge strictly shrinks), or the grid is untouched, the gauge does not
grow, keys other than the processed one survive, no key appears, and — when
the processed key is present and deepest — the gauge strictly shrinks. -/
theorem processKey_cases (s : AState) (p : Key) (r : Sandbox.Rand) (k : Nat)
    (hInv : Inv s) :
    (gauge (processKey s p r k).1 < gauge s ∧ Inv (processKey s p r k).1) ∨
    (gauge (processKey s p r k).1 ≤ gauge s ∧ Inv (processKey s p r k).1 ∧
      (∀ q ∈ s.activeSand, q ≠ p → q ∈ (processKey s p r k).1.activeSand) ∧
      (∀ q ∈ (processKey s p r k).1.activeSand, q ∈ s.activeSand) ∧
      (p ∈ s.activeSand → (∀ q ∈ s.activeSand, q.2 ≤ p.2) →
        gauge (processKey s p r k).1 < gauge s)) := by
  unfold processKey
  split
  · right
    obtain ⟨h1, h2, h3, h4, h5⟩ := del_branch s p hInv
    exact ⟨h1, h2, h3, h4, fun hp _ => h5 hp⟩
  · rename_i hsand
    push_neg at hsand
    unfold updateCell
    rw [if_neg (not_not_intro hsand)]
    split
    · rename_i hemp
      exact Or.inl (move_branch s p.1 p.2 p.1 hInv hsand hemp)
    · split
      · rename_i tx hst
        exact Or.inl (move_branch s p.1 p.2 tx hInv hsand (slideTarget_some hst))
      · split
        · rename_i hbelow
          right
          refine ⟨le_refl _, hInv, fun q hq _ => hq, fun q hq => hq, ?_⟩
          intro hp hdeep
          exfalso
          rcases hbelow with hb | hb | hb
          · have := hdeep _ hb
            dsimp at this
            omega
          · have := hdeep _ hb
            dsimp at this
            omega
          · have := hdeep _ hb
            dsimp at this
            omega
        · right
          obtain ⟨h1, h2, h3, h4, h5⟩ := del_branch s p hInv
          exact ⟨h1, h2, h3, h4, fun hp _ => h5 hp⟩

/-- The snapshot loop never grows the gauge and preserves the invariant. -/
theorem stepKeys_gauge_le (r : Sandbox.Rand) :
    ∀ (keys : List Key) (s : AState) (k : Nat), Inv s →
      gauge (stepKeys keys s r k).1 ≤ gauge s ∧ Inv (stepKeys keys s r k).1
  | [], s, k, hInv => ⟨le_refl _, hInv⟩
  | p :: rest, s, k, hInv => by
    show gauge (stepKeys rest (processKey s p r k).1 r (processKey s p r k).2).1
        ≤ gauge s ∧ _
    rcases processKey_cases s p r k hInv with ⟨hlt, hI⟩ | ⟨hle, hI, _, _, _⟩
    · obtain ⟨ih1, ih2⟩ := stepKeys_gauge_le r rest (processKey s p r k).1
        (processKey s p r k).2 hI
      exact ⟨le_trans ih1 (le_of_lt hlt), ih2⟩
    · obtain ⟨ih1, ih2⟩ := stepKeys_gauge_le r rest (processKey s p r k).1
        (processKey s p r k).2 hI
      exact ⟨le_trans ih1 hle, ih2⟩

/-- When some pending key of the snapshot is deepest among all active keys,
the snapshot loop strictly shrinks the gauge. -/
theorem stepKeys_progress (r : Sandbox.Rand) :
    ∀ (keys : List Key) (s : AState) (k : Nat), Inv s →
      keys.Nodup → (∀ p ∈ keys, p ∈ s.activeSand) →
      ∀ K : Key, K ∈ keys → (∀ q ∈ s.activeSand, q.2 ≤ K.2) →
      gauge (stepKeys keys s r k).1 < gauge s
  | [], _, _, _, _, _, K, hK, _ => absurd hK (List.not_mem_nil K)
  | p :: rest, s, k, hInv, hnd, hpend, K, hK, hdeep => by
    show gauge (stepKeys rest (processKey s p r k).1 r (processKey s p r k).2).1
        < gauge s
    rcases processKey_cases s p r k hInv with ⟨hlt, hI⟩ | ⟨hle, hI, hsurv, hsub, hstrict⟩
    · exact lt_of_le_of_lt (stepKeys_gauge_le r rest (processKey s p r k).1
        (processKey s p r k).2 hI).1 hlt
    · by_cases hKp : K = p
      · have hstrict2 := hstrict (hpend p (List.mem_cons_self p rest))
          (fun q hq => hKp ▸ hdeep q hq)
        exact lt_of_le_of_lt (stepKeys_gauge_le r rest (processKey s p r k).1
          (processKey s p r k).2 hI).1 hstrict2
      · have hKrest : K ∈ rest := by
          rcases List.mem_cons.1 hK with h | h
          · exact absurd h hKp
          · exact h
        have hpnotin : p ∉ rest := (List.nodup_cons.1 hnd).1
        have ih := stepKeys_progress r rest (processKey s p r k).1
          (processKey s p r k).2 hI (List.nodup_cons.1 hnd).2
          (fun q hq => hsurv q (hpend q (List.mem_cons_of_mem p hq))
            (fun hqp => hpnotin (hqp ▸ hq)))
          K hKrest (fun q hq => hdeep q (hsub q hq))
        exact lt_of_lt_of_le ih hle

theorem exists_max_snd :
    ∀ (l : List Key), l ≠ [] → ∃ K ∈ l, ∀ q ∈ l, q.2 ≤ K.2
  | [], h => absurd rfl h
  | p :: rest, _ => by
    by_cases h : rest = []
    · subst h
      exact ⟨p, List.mem_cons_self p [], by
        intro q hq
        rcases List.mem_cons.1 hq with rfl | hq2
        · exact le_refl _
        · cases hq2⟩
    · obtain ⟨K, hKmem, hKmax⟩ := exists_max_snd rest h
      by_cases hpK : p.2 ≤ K.2
      · refine ⟨K, List.mem_cons_of_mem p hKmem, ?_⟩
        intro q hq
        rcases List.mem_cons.1 hq with rfl | hq2
        · exact hpK
        · exact hKmax q hq2
      · refine ⟨p, List.mem_cons_self p rest, ?_⟩
        intro q hq
        rcases List.mem_cons.1 hq with rfl | hq2
        · exact le_refl _
        · exact le_trans (hKmax q hq2) (by omega)

theorem processKey_ants (s : AState) (p : Key) (r : Sandbox.Rand) (k : Nat) :
    (processKey s p r k).1.ants = s.ants := by
  unfold processKey updateCell
  split
  · rfl
  · split
    · rfl
    · split
      · rfl
      · split
        · rfl
        · rfl

theorem stepKeys_ants (r : Sandbox.Rand) :
    ∀ (keys : List Key) (s : AState) (k : Nat),
      (stepKeys keys s r k).1.ants = s.ants
  | [], _, _ => rfl
  | p :: rest, s, k => by
    show (stepKeys rest (processKey s p r k).1 r (processKey s p r k).2).1.ants
        = s.ants
    rw [stepKeys_ants r rest (processKey s p r k).1 (processKey s p r k).2,
      processKey_ants]

/-- With no ants, `simulateStep` is the tick bump followed by the snapshot
loop. -/
theorem simulateStep_eq_noants (s : AState) (r : Sandbox.Rand) (k : Nat)
    (h : s.ants = []) :
    simulateStep s r k
      = ({ (stepKeys s.activeSand { s with tick := s.tick + 1 } r k).1 with
            ants := [] },
         (stepKeys s.activeSand { s with tick := s.tick + 1 } r k).2) := by
  unfold simulateStep
  dsimp only
  have hants : (stepKeys s.activeSand { s with tick := s.tick + 1 } r k).1.ants
      = [] := by
    rw [stepKeys_ants]
    exact h
  rw [hants]
  rfl

/-- One tick with a nonempty active set strictly shrinks the gauge. -/
theorem simulateStep_progress (s : AState) (r : Sandbox.Rand) (k : Nat)
    (hInv : Inv s) (hne : s.activeSand ≠ []) :
    Inv (simulateStep s r k).1 ∧ gauge (simulateStep s r k).1 < gauge s := by
  rw [simulateStep_eq_noants s r k hInv.2.2]
  have hInv1 : Inv { s with tick := s.tick + 1 } := hInv
  obtain ⟨K, hKmem, hKmax⟩ := exists_max_snd s.activeSand hne
  have hprog := stepKeys_progress r s.activeSand { s with tick := s.tick + 1 } k
    hInv1 hInv.2.1.1 (fun p hp => hp) K hKmem hKmax
  have hIend := (stepKeys_gauge_le r s.activeSand { s with tick := s.tick + 1 } k
    hInv1).2
  constructor
  · exact ⟨hIend.1, hIend.2.1, rfl⟩
  · exact hprog

theorem settle_aux (r : Sandbox.Rand) :
    ∀ (m : Nat) (s : AState) (k : Nat), Inv s → gauge s ≤ m →
      ∃ n, (runSteps r n s k).1.activeSand = []
  | 0, s, k, _, hm => by
    by_cases h : s.activeSand = []
    · exact ⟨0, h⟩
    · exfalso
      have hpos : 0 < s.activeSand.length := List.length_pos.2 h
      unfold gauge at hm
      omega
  | m + 1, s, k, hInv, hm => by
    by_cases h : s.activeSand = []
    · exact ⟨0, h⟩
    · obtain ⟨hI2, hlt⟩ := simulateStep_progress s r k hInv h
      obtain ⟨n, hn⟩ := settle_aux r m (simulateStep s r k).1 (simulateStep s r k).2
        hI2 (by omega)
      exact ⟨n + 1, hn⟩

theorem gridWF_replicate (W H : Nat) :
    Sandbox.GridWF W H (List.replicate H (List.replicate W Sandbox.Cell.Empty)) := by
  constructor
  · simp
  · intro j hj
    rw [List.getD_eq_getElem?_getD, List.getElem?_replicate, if_pos hj]
    simp

end ASand

/-- Claim C4: in the active-set profile with no ants and no outside edits,
repeated `simulateStep` calls reach a state whose `activeSand` set is empty,
for every random stream: every move lowers the row-weighted sand potential,
and in a tick without moves the deepest active key settles out (the three
cells below it are deeper than every active key, hence inactive), so a
gauge combining the two strictly decreases while the set is nonempty. -/
theorem C4_settling_termination (s : ASand.AState) (r : Sandbox.Rand) (k : Nat)
    (hwf : Sandbox.GridWF ASand.WORLD_WIDTH ASand.WORLD_HEIGHT s.grid)
    (hants : s.ants = [])
    (hkeys : ASand.KeysWF s.activeSand) :
    ∃ n, (ASand.runSteps r n s k).1.activeSand = [] :=
  ASand.settle_aux r (ASand.gauge s) s k ⟨hwf, hkeys, hants⟩ (le_refl _)

/-- Concrete 160×120 empty grid with one (stale) active key for the C4
witness. -/
def c4State : ASand.AState :=
  { grid := List.replicate ASand.WORLD_HEIGHT
      (List.replicate ASand.WORLD_WIDTH Sandbox.Cell.Empty),
    ants := [], tick := 0, activeSand := [(5, 5)], marker := none }

/-- Witness for C4 at a concrete state and random stream. -/
theorem C4_settling_termination_witness :
    Sandbox.GridWF ASand.WORLD_WIDTH ASand.WORLD_HEIGHT c4State.grid ∧
      c4State.ants = [] ∧ ASand.KeysWF c4State.activeSand ∧
      ∃ n, (ASand.runSteps Sandbox.halfRand n c4State 0).1.activeSand = [] :=
  ⟨ASand.gridWF_replicate ASand.WORLD_WIDTH ASand.WORLD_HEIGHT, rfl,
    ⟨by decide, by decide⟩,
    C4_settling_termination c4State Sandbox.halfRand 0
      (ASand.gridWF_replicate ASand.WORLD_WIDTH ASand.WORLD_HEIGHT) rfl
      ⟨by decide, by decide⟩⟩

namespace ASand

theorem not_isEmpty_of_isSolid {g : Sandbox.Grid} {x y : Int}
    (h : isSolid g x y = true) : isEmpty g x y [] = false := by
  unfold isSolid at h
  unfold isEmpty
  split
  · rfl
  · rename_i hc
    rw [if_neg hc] at h
    rw [if_neg (show ¬isAntAt [] x y = true by simp [isAntAt])]
    rcases of_decide_eq_true h with hc2 | hc2 <;> rw [hc2] <;> rfl

theorem walkMarker_none (g : Sandbox.Grid) (a : Ant) (x y : Int)
    (r : Sandbox.Rand) (k : Nat) : walkMarker g a none x y r k = (a, k) := rfl

theorem walkDigCheck_coords (g : Sandbox.Grid) (a : Ant) (x y : Int)
    (r : Sandbox.Rand) (k : Nat) :
    (walkDigCheck g a x y r k).1.x = a.x ∧ (walkDigCheck g a x y r k).1.y = a.y ∧
      (walkDigCheck g a x y r k).1.direction = a.direction := by
  unfold walkDigCheck
  split
  · split
    · exact ⟨rfl, rfl, rfl⟩
    · exact ⟨rfl, rfl, rfl⟩
  · exact ⟨rfl, rfl, rfl⟩

theorem walkDropCheck_coords (a : Ant) (r : Sandbox.Rand) (k : Nat) :
    (walkDropCheck a r k).1.x = a.x ∧ (walkDropCheck a r k).1.y = a.y ∧
      (walkDropCheck a r k).1.direction = a.direction := by
  unfold walkDropCheck
  split
  · split
    · exact ⟨rfl, rfl, rfl⟩
    · exact ⟨rfl, rfl, rfl⟩
  · exact ⟨rfl, rfl, rfl⟩

theorem walkMove_climbs (g : Sandbox.Grid) (a : Ant) (x y : Int)
    (r : Sandbox.Rand) (k : Nat) (h : Nat)
    (hsolid : isSolid g (x + a.direction) y = true)
    (hclimb : climbLoop g x y (x + a.direction) (List.range' 1 maxClimbHeight)
      = some h) :
    (walkMove g a x y r k).1.y = a.y - 1 ∧
      (walkMove g a x y r k).1.direction = a.direction := by
  have hempF := not_isEmpty_of_isSolid hsolid
  unfold walkMove
  simp only [hempF, Bool.false_and, Bool.false_eq_true, if_false, hclimb]
  constructor
  · split
    · rfl
    · rfl
  · split
    · rfl
    · rfl

theorem walkMove_wallwalks (g : Sandbox.Grid) (a : Ant) (x y : Int)
    (r : Sandbox.Rand) (k : Nat)
    (hsolid : isSolid g (x + a.direction) y = true)
    (hclimb : climbLoop g x y (x + a.direction) (List.range' 1 maxClimbHeight)
      = none)
    (hwall : isEmpty g x (y - 1) [] = true) :
    walkMove g a x y r k = ({ a with y := a.y - 1 }, k) := by
  have hempF := not_isEmpty_of_isSolid hsolid
  unfold walkMove
  simp only [hempF, Bool.false_and, Bool.false_eq_true, if_false, hclimb,
    hwall, hsolid, Bool.true_and, if_true]

theorem walkMove_turns (g : Sandbox.Grid) (a : Ant) (x y : Int)
    (r : Sandbox.Rand) (k : Nat)
    (hsolid : isSolid g (x + a.direction) y = true)
    (hclimb : climbLoop g x y (x + a.direction) (List.range' 1 maxClimbHeight)
      = none)
    (hwallF : isEmpty g x (y - 1) [] = false)
    (hdig : isDiggable g (x + a.direction) y = false) :
    walkMove g a x y r k
      = ({ a with direction := if a.direction = 1 then -1 else 1 }, k) := by
  have hempF := not_isEmpty_of_isSolid hsolid
  unfold walkMove
  simp only [hempF, Bool.false_and, Bool.false_eq_true, if_false, hclimb,
    hwallF, hdig, Bool.and_false]

end ASand

/-- Concrete row and grid for the C8 scenario: the ant's own column (x = 3)
is empty, the forward column (x = 4) is a wall from row 2 down to row 12. -/
def c8Row : List Sandbox.Cell :=
  [Sandbox.Cell.Empty, Sandbox.Cell.Empty, Sandbox.Cell.Empty,
   Sandbox.Cell.Empty, Sandbox.Cell.Wall]

def c8Grid : Sandbox.Grid :=
  [[], [], c8Row, c8Row, c8Row, c8Row, c8Row, c8Row, c8Row, c8Row, c8Row,
   c8Row, c8Row]

def c8Ant : ASand.Ant :=
  { x := 7 / 2, y := 25 / 2, direction := 1, carrySand := false,
    state := Sandbox.AntState.walking, digCooldown := 0 }

/-- Counterexample to claim C8 as stated: this ant is blocked forward by a
wall, the climb scan over heights 1..10 finds no row (the forward column is
solid all the way up), and no dig can occur (the forward cell is a wall, not
sand) — yet the ant does not turn around: the `canWalkWall` branch of
`walkBehavior` moves it up one cell with its direction unchanged. -/
theorem C8_climbing_rule_counterexample :
    ASand.isSolid c8Grid (⌊c8Ant.x⌋ + c8Ant.direction) ⌊c8Ant.y⌋ = true ∧
    ASand.climbLoop c8Grid ⌊c8Ant.x⌋ ⌊c8Ant.y⌋ (⌊c8Ant.x⌋ + c8Ant.direction)
        (List.range' 1 ASand.maxClimbHeight) = none ∧
    ASand.isDiggable c8Grid (⌊c8Ant.x⌋ + c8Ant.direction) ⌊c8Ant.y⌋ = false ∧
    (ASand.walkBehavior c8Grid c8Ant none Sandbox.halfRand 0).1.direction
        = c8Ant.direction ∧
    (ASand.walkBehavior c8Grid c8Ant none Sandbox.halfRand 0).1.y
        = c8Ant.y - 1 := by
  decide

/-- Claim C8 amended: for an ant blocked forward by a solid cell (with no
marker set), the climb scan (heights 1 to 10, stopping at the first ceiling
in its own column, needing both its own and the forward column empty while
the forward cell at its own row is solid) decides a climb, and a climbing
tick lowers `y` by exactly one — but when the scan fails the ant does not
necessarily turn around: if the cell above it is empty it walks up the wall
(`y` again drops by one, direction kept); only when the cell above is not
empty and no dig is possible does it turn around in place. -/
theorem C8_climbing_rule_amended (g : Sandbox.Grid) (a : ASand.Ant)
    (r : Sandbox.Rand) (k : Nat)
    (hsolid : ASand.isSolid g (⌊a.x⌋ + a.direction) ⌊a.y⌋ = true) :
    ((∀ h : Nat,
        ASand.climbLoop g ⌊a.x⌋ ⌊a.y⌋ (⌊a.x⌋ + a.direction)
            (List.range' 1 ASand.maxClimbHeight) = some h →
        (ASand.walkBehavior g a none r k).1.y = a.y - 1 ∧
          (ASand.walkBehavior g a none r k).1.direction = a.direction) ∧
     (ASand.climbLoop g ⌊a.x⌋ ⌊a.y⌋ (⌊a.x⌋ + a.direction)
          (List.range' 1 ASand.maxClimbHeight) = none →
      ASand.isEmpty g ⌊a.x⌋ (⌊a.y⌋ - 1) [] = true →
        (ASand.walkBehavior g a none r k).1.x = a.x ∧
        (ASand.walkBehavior g a none r k).1.y = a.y - 1 ∧
        (ASand.walkBehavior g a none r k).1.direction = a.direction) ∧
     (ASand.climbLoop g ⌊a.x⌋ ⌊a.y⌋ (⌊a.x⌋ + a.direction)
          (List.range' 1 ASand.maxClimbHeight) = none →
      ASand.isEmpty g ⌊a.x⌋ (⌊a.y⌋ - 1) [] = false →
      ASand.isDiggable g (⌊a.x⌋ + a.direction) ⌊a.y⌋ = false →
        (ASand.walkBehavior g a none r k).1.x = a.x ∧
        (ASand.walkBehavior g a none r k).1.y = a.y ∧
        (ASand.walkBehavior g a none r k).1.direction
          = (if a.direction = 1 then -1 else 1))) := by
  have hwb : ASand.walkBehavior g a none r k
      = ASand.walkDropCheck
          (ASand.walkDigCheck g (ASand.walkMove g a ⌊a.x⌋ ⌊a.y⌋ r k).1 ⌊a.x⌋ ⌊a.y⌋ r
            (ASand.walkMove g a ⌊a.x⌋ ⌊a.y⌋ r k).2).1 r
          (ASand.walkDigCheck g (ASand.walkMove g a ⌊a.x⌋ ⌊a.y⌋ r k).1 ⌊a.x⌋ ⌊a.y⌋ r
            (ASand.walkMove g a ⌊a.x⌋ ⌊a.y⌋ r k).2).2 := rfl
  obtain ⟨hgx, hgy, hgd⟩ := ASand.walkDigCheck_coords g
    (ASand.walkMove g a ⌊a.x⌋ ⌊a.y⌋ r k).1 ⌊a.x⌋ ⌊a.y⌋ r
    (ASand.walkMove g a ⌊a.x⌋ ⌊a.y⌋ r k).2
  obtain ⟨hpx, hpy, hpd⟩ := ASand.walkDropCheck_coords
    (ASand.walkDigCheck g (ASand.walkMove g a ⌊a.x⌋ ⌊a.y⌋ r k).1 ⌊a.x⌋ ⌊a.y⌋ r
      (ASand.walkMove g a ⌊a.x⌋ ⌊a.y⌋ r k).2).1 r
    (ASand.walkDigCheck g (ASand.walkMove g a ⌊a.x⌋ ⌊a.y⌋ r k).1 ⌊a.x⌋ ⌊a.y⌋ r
      (ASand.walkMove g a ⌊a.x⌋ ⌊a.y⌋ r k).2).2
  refine ⟨?_, ?_, ?_⟩
  · intro h hclimb
    obtain ⟨hy, hd⟩ := ASand.walkMove_climbs g a ⌊a.x⌋ ⌊a.y⌋ r k h hsolid hclimb
    rw [hwb]
    exact ⟨by rw [hpy, hgy, hy], by rw [hpd, hgd, hd]⟩
  · intro hclimb hwall
    have hwm := ASand.walkMove_wallwalks g a ⌊a.x⌋ ⌊a.y⌋ r k hsolid hclimb hwall
    rw [hwb]
    refine ⟨?_, ?_, ?_⟩
    · rw [hpx, hgx, hwm]
    · rw [hpy, hgy, hwm]
    · rw [hpd, hgd, hwm]
  · intro hclimb hwallF hdig
    have hwm := ASand.walkMove_turns g a ⌊a.x⌋ ⌊a.y⌋ r k hsolid hclimb hwallF hdig
    rw [hwb]
    refine ⟨?_, ?_, ?_⟩
    · rw [hpx, hgx, hwm]
    · rw [hpy, hgy, hwm]
    · rw [hpd, hgd, hwm]

/-- Witness for the amended C8 at a concrete grid and ant (the wall-walk
case). -/
theorem C8_climbing_rule_amended_witness :
    ASand.isSolid c8Grid (⌊c8Ant.x⌋ + c8Ant.direction) ⌊c8Ant.y⌋ = true ∧
      ((ASand.walkBehavior c8Grid c8Ant none Sandbox.halfRand 0).1.x = c8Ant.x ∧
       (ASand.walkBehavior c8Grid c8Ant none Sandbox.halfRand 0).1.y
          = c8Ant.y - 1 ∧
       (ASand.walkBehavior c8Grid c8Ant none Sandbox.halfRand 0).1.direction
          = c8Ant.direction) :=
  ⟨by decide,
   (C8_climbing_rule_amended c8Grid c8Ant Sandbox.halfRand 0 (by decide)).2.1
     (by decide) (by decide)⟩
